import Mathlib

/-!
# ESPNOW pong: packet codec and negotiation task

A shallow embedding of `main/blink.c`: the packet codec (`pong_data_prepare`,
`pong_data_parse`), and the event loop of `pong_task` written as a step
function on an explicit task state. Machine integers are natural numbers
reduced modulo their width where the C code stores them; buffers are lists
of bytes.
-/

namespace Pong

/-! ## Constants and types declared in `pong.h` -/

/-- Modelled from the spec: `sizeof(pong_data_t)`, the fixed header size. The header
`pong.h` is not part of the sources; the wire layout table gives kind (1 byte),
role_state (1), sequence (2), checksum (2), session_magic (4), then the payload. -/
def PONG_DATA_SIZE : Nat := 10

/-- Modelled from the spec: kind value of a broadcast packet (`0 = broadcast`). -/
def pong_DATA_BROADCAST : Nat := 0

/-- Modelled from the spec: kind value of a unicast packet (`1 = unicast`). -/
def pong_DATA_UNICAST : Nat := 1

/-- The broadcast address `s_example_broadcast_mac`. -/
def s_example_broadcast_mac : List Nat := [0xFF, 0xFF, 0xFF, 0xFF, 0xFF, 0xFF]

/-- Modelled from the spec: the macro `IS_BROADCAST_ADDR` of `pong.h`, which compares an
address with `s_example_broadcast_mac`. -/
def IS_BROADCAST_ADDR (addr : List Nat) : Bool :=
  decide (addr = s_example_broadcast_mac)

/-- Modelled from the spec: the send parameter block `pong_send_param_t` of `pong.h`,
with the fields that `blink.c` reads and writes. -/
structure pong_send_param_t where
  unicast : Bool
  broadcast : Bool
  state : Nat
  magic : Nat
  count : Nat
  delay : Nat
  len : Nat
  buffer : List Nat
  dest_mac : List Nat
deriving DecidableEq, Repr

/-! ## The checksum routine -/

/-- One bit of the reflected CRC-16/CCITT division (polynomial `0x8408`). -/
def crc16_bit (c : Nat) : Nat :=
  if c % 2 = 1 then (c >>> 1) ^^^ 0x8408 else c >>> 1

/-- Entry `i` of the table `crc16_le_table`: eight division steps on `i`. -/
def crc16_le_table (i : Nat) : Nat :=
  crc16_bit (crc16_bit (crc16_bit (crc16_bit (crc16_bit (crc16_bit (crc16_bit (crc16_bit i)))))))

/-- The loop body of `crc16_le`:
`crc = crc16_le_table[(crc ^ buf[i]) & 0xff] ^ (crc >> 8)`. -/
def crc16_update (crc b : Nat) : Nat :=
  crc16_le_table ((crc ^^^ b) &&& 0xff) ^^^ (crc >>> 8)

/-- Complement of a `uint16_t`. -/
def not16 (x : Nat) : Nat := 65535 - x % 65536

/-- Modelled from the spec: the checksum routine `crc16_le(crc, buf, len)`. It is the
ROM routine declared in `esp32/rom/crc.h`, not part of the sources: a table-driven
reflected CRC-16/CCITT that complements the seed on entry and the result on exit. -/
def crc16_le (crc : Nat) (buf : List Nat) (len : Nat) : Nat :=
  not16 ((buf.take len).foldl crc16_update (not16 crc))

/-- A left inverse of the high byte of the table entries, used to show that
distinct table indices give distinct entries. -/
def crc16_hi_inv (y : Nat) : Nat :=
  let w := y ^^^ (y >>> 5)
  w ^^^ ((w <<< 4) &&& 0xff)

/-- The constant `UINT16_MAX`. -/
def UINT16_MAX : Nat := 65535

/-! ## Packet codec -/

/-- Conversion of a `uint32_t` value to `int` (two's complement, 32 bits). -/
def toInt32 (m : Nat) : Int :=
  if m % 4294967296 < 2147483648 then ((m % 4294967296 : Nat) : Int)
  else ((m % 4294967296 : Nat) : Int) - 4294967296

/-- Conversion of an `int` value to `uint32_t`. -/
def toUInt32 (i : Int) : Nat := (i % 4294967296).toNat

/-- Read of the byte at offset `o`. -/
def rd8 (d : List Nat) (o : Nat) : Nat := d.getD o 0 % 256

/-- Little-endian read of a `uint16_t` at offset `o`. -/
def rd16 (d : List Nat) (o : Nat) : Nat := rd8 d o + 256 * rd8 d (o + 1)

/-- Little-endian read of a `uint32_t` at offset `o`. -/
def rd32 (d : List Nat) (o : Nat) : Nat :=
  rd8 d o + 256 * rd8 d (o + 1) + 65536 * rd8 d (o + 2) + 16777216 * rd8 d (o + 3)

/-- Write of a byte at offset `o`. -/
def wr8 (d : List Nat) (o v : Nat) : List Nat := d.set o (v % 256)

/-- Little-endian write of a `uint16_t` at offset `o`. -/
def wr16 (d : List Nat) (o v : Nat) : List Nat :=
  wr8 (wr8 d o v) (o + 1) (v / 256)

/-- Little-endian write of a `uint32_t` at offset `o`. -/
def wr32 (d : List Nat) (o v : Nat) : List Nat :=
  wr8 (wr8 (wr8 (wr8 d o v) (o + 1) (v / 256)) (o + 2) (v / 65536)) (o + 3) (v / 16777216)

/-- What `pong_data_parse` leaves behind: its return value, the input buffer as it
is after the call, and the three out-parameters. -/
structure parse_result where
  ret : Int
  data : List Nat
  state : Nat
  seq : Nat
  magic : Int
deriving DecidableEq, Repr

/-- The function `pong_data_parse(data, data_len, state, seq, magic)`. The arguments
`state`, `seq` and `magic` are the values the out-parameters hold before the call. -/
def pong_data_parse (data : List Nat) (data_len : Nat) (state seq : Nat) (magic : Int) :
    parse_result :=
  if data_len < PONG_DATA_SIZE then
    { ret := -1, data := data, state := state, seq := seq, magic := magic }
  else
    let state1 := rd8 data 1
    let seq1 := rd16 data 2
    let magic1 := toInt32 (rd32 data 6)
    let crc := rd16 data 4
    let buf := wr16 data 4 0
    let crc_cal := crc16_le UINT16_MAX buf data_len
    if crc_cal = crc then
      { ret := (rd8 buf 0 : Nat), data := buf, state := state1, seq := seq1, magic := magic1 }
    else
      { ret := -1, data := buf, state := state1, seq := seq1, magic := magic1 }

/-- The routine `esp_fill_random(buf, n)`: `n` bytes taken from the random source `rnd`. -/
def esp_fill_random (rnd : List Nat) (n : Nat) : List Nat :=
  (List.range n).map (fun i => rnd.getD i 0 % 256)

/-- The counters `s_pong_seq`, one per packet kind. -/
structure seq_counters where
  bcast : Nat
  ucast : Nat
deriving DecidableEq, Repr

/-- Read of `s_pong_seq[type]`. -/
def seq_counters.get (s : seq_counters) (type : Nat) : Nat :=
  if type = pong_DATA_BROADCAST then s.bcast else s.ucast

/-- The post-increment `s_pong_seq[type]++` on a `uint16_t`. -/
def seq_counters.incr (s : seq_counters) (type : Nat) : seq_counters :=
  if type = pong_DATA_BROADCAST then { s with bcast := (s.bcast + 1) % 65536 }
  else { s with ucast := (s.ucast + 1) % 65536 }

/-- The function `pong_data_prepare(send_param)`. It returns `none` when the assertion
`send_param->len >= sizeof(pong_data_t)` fails; otherwise the parameter block with
its buffer rewritten and the counters `s_pong_seq` after the increment. The bytes
that `esp_fill_random` delivers come from `rnd`. -/
def pong_data_prepare (send_param : pong_send_param_t) (s_pong_seq : seq_counters)
    (rnd : List Nat) : Option (pong_send_param_t × seq_counters) :=
  if send_param.len < PONG_DATA_SIZE then none
  else
    let buf := send_param.buffer
    let type := if IS_BROADCAST_ADDR send_param.dest_mac then pong_DATA_BROADCAST
      else pong_DATA_UNICAST
    let buf := wr8 buf 0 type
    let buf := wr8 buf 1 send_param.state
    let buf := wr16 buf 2 (s_pong_seq.get type)
    let seq1 := s_pong_seq.incr type
    let buf := wr16 buf 4 0
    let buf := wr32 buf 6 send_param.magic
    let buf := buf.take PONG_DATA_SIZE
      ++ esp_fill_random rnd (send_param.len - PONG_DATA_SIZE) ++ buf.drop send_param.len
    let buf := wr16 buf 4 (crc16_le UINT16_MAX buf send_param.len)
    some ({ send_param with buffer := buf }, seq1)

/-- The ten header bytes of a packet with the given field values, in wire order. -/
def header_bytes (type state seq crc magic : Nat) : List Nat :=
  [type % 256, state % 256, seq % 256, seq / 256 % 256, crc % 256, crc / 256 % 256,
   magic % 256, magic / 256 % 256, magic / 65536 % 256, magic / 16777216 % 256]

/-- The bytes of a whole packet: the header with the checksum of the packet taken
with a zero checksum field, then the payload. -/
def packet_bytes (type state seq magic : Nat) (payload : List Nat) : List Nat :=
  header_bytes type state seq
    (crc16_le UINT16_MAX (header_bytes type state seq 0 magic ++ payload)
      (PONG_DATA_SIZE + payload.length)) magic ++ payload

/-- The kind `pong_data_prepare` chooses for a destination address. -/
def kind_of (dest_mac : List Nat) : Nat :=
  if IS_BROADCAST_ADDR dest_mac then pong_DATA_BROADCAST else pong_DATA_UNICAST

/-- The buffer `d` with bit `i` flipped: bit `i % 8` of the byte at offset `i / 8`. -/
def flip_bit (d : List Nat) (i : Nat) : List Nat :=
  d.set (i / 8) (rd8 d (i / 8) ^^^ 2 ^ (i % 8))

/-! ## The task `pong_task` -/

/-- An event taken from `s_message_queue`: a send completion (`pong_SEND_CB`) with
the destination address and the reported status, a reception (`pong_RECV_CB`) with
the sender address and the copied data (`data_len` is the length of `data`), or an
event with any other identifier. -/
inductive pong_event_t where
  | send_cb (mac_addr : List Nat) (status : Nat)
  | recv_cb (mac_addr : List Nat) (data : List Nat)
  | other (id : Nat)
deriving DecidableEq, Repr

/-- What the platform answers while one event is processed: the bytes delivered by
`esp_fill_random`, whether `esp_now_send` returns `ESP_OK`, whether `malloc` of the
peer record succeeds and whether `esp_now_add_peer` returns `ESP_OK`. -/
structure platform where
  rnd : List Nat
  send_ok : Bool
  malloc_ok : Bool
  add_peer_ok : Bool
deriving DecidableEq, Repr

/-- Whether the task still runs: `deleted` after `pong_deinit` and `vTaskDelete`,
`aborted` after a failed `assert` or `ESP_ERROR_CHECK`. -/
inductive task_status where
  | running
  | deleted
  | aborted
deriving DecidableEq, Repr

/-- One call of `esp_now_send(dest_mac, buffer, len)`. -/
structure sent where
  dest : List Nat
  data : List Nat
deriving DecidableEq, Repr

/-- The state the task works on: the parameter block, the counters `s_pong_seq`,
the peer list kept by the transport, the local variables of `pong_task` that
survive an iteration, and whether the task still runs. -/
structure task_state where
  send_param : pong_send_param_t
  s_pong_seq : seq_counters
  peers : List (List Nat)
  recv_state : Nat
  recv_seq : Nat
  recv_magic : Int
  is_broadcast : Bool
  status : task_status
deriving DecidableEq, Repr

/-- The tail shared by the two send sites inside the loop that follow a
`memcpy` into `dest_mac`: `pong_data_prepare`, then `esp_now_send`. The flag
`elect` tells the election site, which sets `broadcast = false` and
`unicast = true` when the send succeeds. -/
def prepare_and_send (st : task_state) (env : platform) (mac : List Nat) (elect : Bool) :
    task_state × List sent :=
  match pong_data_prepare { st.send_param with dest_mac := mac } st.s_pong_seq env.rnd with
  | none => ({ st with send_param := { st.send_param with dest_mac := mac },
                       status := task_status.aborted }, [])
  | some (sp, sq) =>
    let out : List sent := [{ dest := sp.dest_mac, data := sp.buffer.take sp.len }]
    if env.send_ok = false then
      ({ st with send_param := sp, s_pong_seq := sq, status := task_status.deleted }, out)
    else if elect then
      ({ st with send_param := { sp with broadcast := false, unicast := true },
                 s_pong_seq := sq }, out)
    else
      ({ st with send_param := sp, s_pong_seq := sq }, out)

/-- The case `pong_SEND_CB` of the loop body. -/
def on_send_cb (st : task_state) (env : platform) (mac_addr : List Nat) (status : Nat) :
    task_state × List sent :=
  let is_broadcast := IS_BROADCAST_ADDR mac_addr
  let st : task_state := { st with is_broadcast := is_broadcast }
  if is_broadcast && (st.send_param.broadcast == false) then (st, [])
  else
    let sp := if !is_broadcast then
        { st.send_param with count := (st.send_param.count + 65535) % 65536 }
      else st.send_param
    if !is_broadcast && sp.count == 0 then
      ({ st with send_param := sp, status := task_status.deleted }, [])
    else
      prepare_and_send { st with send_param := sp } env mac_addr false

/-- The peer list after `esp_now_add_peer` for an address that
`esp_now_is_peer_exist` does not know; a known address changes nothing. -/
def register_peer (peers : List (List Nat)) (mac_addr : List Nat) : List (List Nat) :=
  if peers.contains mac_addr = false then peers ++ [mac_addr] else peers

/-- The statement `if (send_param->state == 0) send_param->state = 1`. -/
def mark_received (send_param : pong_send_param_t) : pong_send_param_t :=
  if send_param.state = 0 then { send_param with state := 1 } else send_param

/-- The case `pong_RECV_CB` of the loop body. The test
`send_param->magic >= recv_magic` compares a `uint32_t` with an `int`, so the `int`
is converted and the comparison is unsigned. -/
def on_recv_cb (st : task_state) (env : platform) (mac_addr : List Nat) (data : List Nat) :
    task_state × List sent :=
  let r := pong_data_parse data (data.length % 65536) st.recv_state st.recv_seq st.recv_magic
  let st : task_state :=
    { st with recv_state := r.state, recv_seq := r.seq, recv_magic := r.magic }
  if r.ret = (pong_DATA_BROADCAST : Nat) then
    if st.peers.contains mac_addr = false ∧ env.malloc_ok = false then
      ({ st with status := task_status.deleted }, [])
    else if st.peers.contains mac_addr = false ∧ env.add_peer_ok = false then
      ({ st with status := task_status.aborted }, [])
    else
      let st : task_state :=
        { st with peers := register_peer st.peers mac_addr,
                  send_param := mark_received st.send_param }
      if st.recv_state = 1 then
        if st.send_param.unicast = false ∧ st.send_param.magic ≥ toUInt32 st.recv_magic then
          prepare_and_send st env mac_addr true
        else (st, [])
      else (st, [])
  else if r.ret = (pong_DATA_UNICAST : Nat) then
    ({ st with send_param := { st.send_param with broadcast := false } }, [])
  else (st, [])

/-- One iteration of the loop of `pong_task`: the task state after the event and
the calls of `esp_now_send` made while processing it. A task that no longer runs
takes no event. -/
def pong_task_step (st : task_state) (env : platform) (evt : pong_event_t) :
    task_state × List sent :=
  match st.status with
  | task_status.running =>
    match evt with
    | pong_event_t.send_cb mac_addr status => on_send_cb st env mac_addr status
    | pong_event_t.recv_cb mac_addr data => on_recv_cb st env mac_addr data
    | pong_event_t.other _ => (st, [])
  | _ => (st, [])

/-- The loop of `pong_task` over a sequence of events, each with the platform's
answers: the final state and, per event, the sends issued. -/
def pong_task_run (st : task_state) : List (platform × pong_event_t) → task_state × List (List sent)
  | [] => (st, [])
  | (env, evt) :: rest =>
    let r := pong_task_step st env evt
    let rs := pong_task_run r.1 rest
    (rs.1, r.2 :: rs.2)

/-- Modelled from the spec: the configuration constants `CONFIG_ESPNOW_SEND_COUNT`,
`CONFIG_ESPNOW_SEND_DELAY` and `CONFIG_ESPNOW_SEND_LEN` (unicast send count,
inter-send delay, total packet length). -/
structure pong_config where
  SEND_COUNT : Nat
  SEND_DELAY : Nat
  SEND_LEN : Nat
deriving DecidableEq, Repr

/-- The function `pong_init` from the point where the parameter block is filled:
`random` is the value of `esp_random()`, `rnd` feeds `esp_fill_random`. The peer
list holds the broadcast address. -/
def pong_init (cfg : pong_config) (random : Nat) (rnd : List Nat) : task_state :=
  let sp : pong_send_param_t :=
    { unicast := false, broadcast := true, state := 0, magic := random % 4294967296,
      count := cfg.SEND_COUNT % 65536, delay := cfg.SEND_DELAY % 65536, len := cfg.SEND_LEN,
      buffer := List.replicate cfg.SEND_LEN 0, dest_mac := s_example_broadcast_mac }
  let st : task_state :=
    { send_param := sp, s_pong_seq := { bcast := 0, ucast := 0 },
      peers := [s_example_broadcast_mac], recv_state := 0, recv_seq := 0, recv_magic := 0,
      is_broadcast := false, status := task_status.running }
  match pong_data_prepare sp st.s_pong_seq rnd with
  | none => { st with status := task_status.aborted }
  | some (sp1, sq) => { st with send_param := sp1, s_pong_seq := sq }

/-- The start of `pong_task`, before the loop: the first broadcast send. -/
def pong_task_start (st : task_state) (env : platform) : task_state × List sent :=
  match st.status with
  | task_status.running =>
    let out : List sent :=
      [{ dest := st.send_param.dest_mac, data := st.send_param.buffer.take st.send_param.len }]
    if env.send_ok = false then ({ st with status := task_status.deleted }, out)
    else (st, out)
  | _ => (st, [])

/-- The packet the task sends next to `mac`: what `pong_data_prepare` writes into
the first `len` bytes of the buffer once `dest_mac` is `mac`. -/
def next_packet (st : task_state) (env : platform) (mac : List Nat) : List Nat :=
  packet_bytes (kind_of mac) st.send_param.state (st.s_pong_seq.get (kind_of mac))
    st.send_param.magic (esp_fill_random env.rnd (st.send_param.len - PONG_DATA_SIZE))

/-- The status `ESP_NOW_SEND_SUCCESS` of `esp_now_send_status_t`. -/
def ESP_NOW_SEND_SUCCESS : Nat := 0

/-- The status `ESP_NOW_SEND_FAIL` of `esp_now_send_status_t`. -/
def ESP_NOW_SEND_FAIL : Nat := 1

/-- A platform on which every call succeeds. -/
def platform_ok (rnd : List Nat) : platform :=
  { rnd := rnd, send_ok := true, malloc_ok := true, add_peer_ok := true }

/-- A parameter block for examples: twelve-byte packets to the broadcast address. -/
def example_param : pong_send_param_t :=
  { unicast := false, broadcast := true, state := 1, magic := 3000000000, count := 5,
    delay := 0, len := 12, buffer := List.replicate 12 0, dest_mac := s_example_broadcast_mac }

/-- The task state after the bookkeeping of a received broadcast: the out-parameters
of `pong_data_parse` stored, the sender registered, the role state raised. -/
def after_broadcast (st : task_state) (r : parse_result) (mac : List Nat) : task_state :=
  { st with recv_state := r.state, recv_seq := r.seq, recv_magic := r.magic,
            peers := register_peer st.peers mac, send_param := mark_received st.send_param }

/-- A running session for examples: five unicast sends, twelve-byte packets,
session magic 1000, as `pong_init` leaves it. -/
def example_session : task_state := pong_init ⟨5, 0, 12⟩ 1000 [9, 9]

/-- A peer address for examples. -/
def example_peer : List Nat := [1, 2, 3, 4, 5, 6]

/-- A twelve-byte broadcast from a peer with role state 1 and session magic 500. -/
def example_broadcast : List Nat := packet_bytes pong_DATA_BROADCAST 1 0 500 [5, 6]

/-- A twelve-byte unicast from a peer with role state 1 and session magic 5000. -/
def example_unicast : List Nat := packet_bytes pong_DATA_UNICAST 1 0 5000 [5, 6]

/-- The address of the local device in the two-device examples. -/
def example_local : List Nat := [6, 5, 4, 3, 2, 1]

/-- A session with the given magic that has processed a first broadcast (role state 0)
of a device at `from_mac`: it is still broadcasting and its role state is 1. -/
def example_seen (magic : Nat) (rnd : List Nat) (from_mac : List Nat) : task_state :=
  (pong_task_step (pong_init ⟨5, 0, 12⟩ magic rnd) (platform_ok [])
    (pong_event_t.recv_cb from_mac (packet_bytes pong_DATA_BROADCAST 0 0 7 [0, 0]))).1

/-- The events of a run of unicast completions for `peer`: one per element of `evs`,
which gives the platform's answers and the reported status. -/
def unicast_completions (peer : List Nat) (evs : List (platform × Nat)) :
    List (platform × pong_event_t) :=
  evs.map (fun e => (e.1, pong_event_t.send_cb peer e.2))

/-- The session `example_session` after it elected itself sender towards
`example_peer`: Unicast mode with five sends remaining. -/
def example_elected : task_state :=
  (pong_task_step example_session (platform_ok [1, 2])
    (pong_event_t.recv_cb example_peer example_broadcast)).1

/-- Whether the transport can deliver the event when the sends issued so far went
to the addresses `issued`: a completion reports the address of an issued send, and
a reception names a sender other than the broadcast address. -/
def event_consistent (issued : List (List Nat)) : pong_event_t → Bool
  | pong_event_t.send_cb mac_addr _ => issued.contains mac_addr
  | pong_event_t.recv_cb mac_addr _ => !(IS_BROADCAST_ADDR mac_addr)
  | pong_event_t.other _ => true

/-- Whether the transport can deliver the whole sequence of events to a task in
state `st` whose sends so far went to `issued`. -/
def transport_consistent (st : task_state) (issued : List (List Nat)) :
    List (platform × pong_event_t) → Bool
  | [] => true
  | (env, evt) :: rest =>
    event_consistent issued evt &&
    transport_consistent (pong_task_step st env evt).1
      (issued ++ (pong_task_step st env evt).2.map (fun s => s.dest)) rest

/-- The relation between target and mode that the task keeps while it runs: the
target is a peer address exactly when `unicast` is set, `broadcast` and `unicast`
are not both set, and every send so far went to the broadcast address or, with
`unicast` set, to the target. -/
def target_invariant (st : task_state) (issued : List (List Nat)) : Prop :=
  st.status = task_status.running →
    (st.send_param.dest_mac ≠ s_example_broadcast_mac ↔ st.send_param.unicast = true) ∧
    (st.send_param.broadcast = true → st.send_param.unicast = false) ∧
    (∀ d ∈ issued, d = s_example_broadcast_mac ∨
      (d = st.send_param.dest_mac ∧ st.send_param.unicast = true))

/-- A platform on which `esp_now_send` fails and every other call succeeds. -/
def platform_send_fails (rnd : List Nat) : platform :=
  { rnd := rnd, send_ok := false, malloc_ok := true, add_peer_ok := true }

/-- A sequence of calls of `pong_data_prepare` in one session, each with the
destination copied into `dest_mac` beforehand and with its filler: the packets
produced (the first `len` bytes of the buffer after each call), up to a failed
assertion. -/
def prepare_calls : List (List Nat × List Nat) → pong_send_param_t → seq_counters →
    List (List Nat)
  | [], _, _ => []
  | (dest, rnd) :: rest, sp, sq =>
    match pong_data_prepare { sp with dest_mac := dest } sq rnd with
    | none => []
    | some (sp1, sq1) => sp1.buffer.take sp1.len :: prepare_calls rest sp1 sq1

/-- The tick count `portMAX_DELAY` of FreeRTOS: wait without a time limit. -/
def portMAX_DELAY : Nat := 4294967295

/-- The outcome of a FreeRTOS queue send as seen when it is called: the item is
queued (`pdTRUE`), the call returns at once with `errQUEUE_FULL`, or the caller is
suspended until there is space or the ticks have passed (`waiting`). -/
inductive queue_send_result where
  | pdTRUE
  | errQUEUE_FULL
  | waiting
deriving DecidableEq, Repr

/-- The FreeRTOS call `xQueueSend(queue, item, xTicksToWait)` on a bounded queue of
`size` items, a kernel routine outside the sources, as its documentation describes
it. With space the item is appended; on a full queue the call fails at once only for
a tick count of zero and otherwise suspends the caller. -/
def xQueueSend (queue : List pong_event_t) (size : Nat) (item : pong_event_t)
    (xTicksToWait : Nat) : queue_send_result × List pong_event_t :=
  if queue.length < size then (queue_send_result.pdTRUE, queue ++ [item])
  else if xTicksToWait = 0 then (queue_send_result.errQUEUE_FULL, queue)
  else (queue_send_result.waiting, queue)

/-- How a transport callback ends: an argument error is logged, the allocation of
the data copy fails, the event is posted, the event is dropped with a warning (and
the data copy freed), or the callback is suspended inside `xQueueSend`. -/
inductive callback_result where
  | arg_error
  | malloc_fail
  | posted
  | dropped
  | suspended
deriving DecidableEq, Repr

/-- The callback `pong_send_cb(mac_addr, status)` on the queue `s_message_queue`;
`none` is a null pointer. -/
def pong_send_cb (queue : List pong_event_t) (size : Nat) (mac_addr : Option (List Nat))
    (status : Nat) : callback_result × List pong_event_t :=
  match mac_addr with
  | none => (callback_result.arg_error, queue)
  | some mac =>
    match xQueueSend queue size (pong_event_t.send_cb mac status) portMAX_DELAY with
    | (queue_send_result.pdTRUE, q) => (callback_result.posted, q)
    | (queue_send_result.errQUEUE_FULL, q) => (callback_result.dropped, q)
    | (queue_send_result.waiting, q) => (callback_result.suspended, q)

/-- The callback `pong_recv_cb(mac_addr, data, len)` on the queue `s_message_queue`;
`none` is a null pointer and `malloc_ok` tells whether the copy can be allocated. -/
def pong_recv_cb (queue : List pong_event_t) (size : Nat) (mac_addr : Option (List Nat))
    (data : Option (List Nat)) (len : Int) (malloc_ok : Bool) :
    callback_result × List pong_event_t :=
  match mac_addr, data with
  | some mac, some d =>
    if len ≤ 0 then (callback_result.arg_error, queue)
    else if malloc_ok = false then (callback_result.malloc_fail, queue)
    else
      match xQueueSend queue size (pong_event_t.recv_cb mac (d.take len.toNat))
          portMAX_DELAY with
      | (queue_send_result.pdTRUE, q) => (callback_result.posted, q)
      | (queue_send_result.errQUEUE_FULL, q) => (callback_result.dropped, q)
      | (queue_send_result.waiting, q) => (callback_result.suspended, q)
  | _, _ => (callback_result.arg_error, queue)

/-- A platform on which the allocation of a peer record fails and every other call
succeeds. -/
def platform_malloc_fails (rnd : List Nat) : platform :=
  { rnd := rnd, send_ok := true, malloc_ok := false, add_peer_ok := true }

/-! ## Lemmas on the checksum -/

set_option maxRecDepth 100000 in
theorem crc16_le_table_lt : ∀ x, x < 256 → crc16_le_table x < 65536 := by decide

set_option maxRecDepth 100000 in
theorem crc16_hi_inv_table : ∀ x, x < 256 → crc16_hi_inv (crc16_le_table x >>> 8) = x := by
  decide

theorem shiftRight_xor (a b n : Nat) : (a ^^^ b) >>> n = (a >>> n) ^^^ (b >>> n) := by
  apply Nat.eq_of_testBit_eq
  intro i
  simp [Nat.testBit_shiftRight, Nat.testBit_xor]

theorem and_255_lt (x : Nat) : x &&& 0xff < 256 := by
  have h : x &&& 0xff = x % 256 := Nat.and_pow_two_sub_one_eq_mod x 8
  rw [h]; omega

theorem and_255_mod (x : Nat) : x &&& 0xff = x % 256 := Nat.and_pow_two_sub_one_eq_mod x 8

theorem crc16_update_lt (s b : Nat) (hs : s < 65536) : crc16_update s b < 65536 := by
  unfold crc16_update
  have h1 : crc16_le_table ((s ^^^ b) &&& 0xff) < 2 ^ 16 :=
    crc16_le_table_lt _ (and_255_lt _)
  have h2 : s >>> 8 < 2 ^ 16 := by
    rw [Nat.shiftRight_eq_div_pow]; omega
  exact Nat.xor_lt_two_pow h1 h2

/-- The table index determines the high byte of the next state. -/
theorem crc16_update_hi (s b : Nat) (hs : s < 65536) :
    crc16_update s b >>> 8 = crc16_le_table ((s ^^^ b) &&& 0xff) >>> 8 := by
  unfold crc16_update
  rw [shiftRight_xor]
  have h : s >>> 8 >>> 8 = 0 := by
    rw [Nat.shiftRight_eq_div_pow, Nat.shiftRight_eq_div_pow]
    omega
  rw [h, Nat.xor_zero]

theorem crc16_update_index (s b : Nat) (hs : s < 65536) :
    crc16_hi_inv (crc16_update s b >>> 8) = (s ^^^ b) &&& 0xff := by
  rw [crc16_update_hi s b hs]
  exact crc16_hi_inv_table _ (and_255_lt _)

/-- For a fixed state the update is injective in the byte. -/
theorem crc16_update_byte_ne (s a b : Nat) (hs : s < 65536) (hab : a % 256 ≠ b % 256) :
    crc16_update s a ≠ crc16_update s b := by
  intro h
  have ha := crc16_update_index s a hs
  have hb := crc16_update_index s b hs
  rw [h, hb] at ha
  rw [Nat.and_xor_distrib_right, Nat.and_xor_distrib_right] at ha
  have := Nat.xor_right_injective ha
  rw [and_255_mod, and_255_mod] at this
  exact hab this.symm

/-- For a fixed byte the update is injective in the state. -/
theorem crc16_update_state_ne (s t b : Nat) (hs : s < 65536) (ht : t < 65536) (hst : s ≠ t) :
    crc16_update s b ≠ crc16_update t b := by
  intro h
  have ha := crc16_update_index s b hs
  have hb := crc16_update_index t b ht
  rw [h, hb] at ha
  have hidx := ha
  rw [Nat.and_xor_distrib_right, Nat.and_xor_distrib_right] at ha
  have hlo := Nat.xor_left_injective ha
  rw [and_255_mod, and_255_mod] at hlo
  unfold crc16_update at h
  rw [hidx] at h
  have hhi := Nat.xor_right_injective h
  rw [Nat.shiftRight_eq_div_pow, Nat.shiftRight_eq_div_pow] at hhi
  apply hst
  omega

theorem crc16_foldl_lt (xs : List Nat) : ∀ s, s < 65536 → xs.foldl crc16_update s < 65536 := by
  induction xs with
  | nil => intro s hs; simpa using hs
  | cons a t ih => intro s hs; exact ih _ (crc16_update_lt s a hs)

theorem crc16_foldl_state_ne (xs : List Nat) :
    ∀ s t, s < 65536 → t < 65536 → s ≠ t →
      xs.foldl crc16_update s ≠ xs.foldl crc16_update t := by
  induction xs with
  | nil => intro s t _ _ h; simpa using h
  | cons a r ih =>
    intro s t hs ht h
    exact ih _ _ (crc16_update_lt s a hs) (crc16_update_lt t a ht)
      (crc16_update_state_ne s t a hs ht h)

/-- Changing one byte of the input changes the final state of the division. -/
theorem crc16_foldl_set_ne (xs : List Nat) :
    ∀ (j v s : Nat), s < 65536 → j < xs.length → v % 256 ≠ xs.getD j 0 % 256 →
      (xs.set j v).foldl crc16_update s ≠ xs.foldl crc16_update s := by
  induction xs with
  | nil => intro j v s _ hj; simp at hj
  | cons a r ih =>
    intro j v s hs hj hv
    cases j with
    | zero =>
      simp only [List.set_cons_zero, List.foldl_cons]
      simp only [List.getD_cons_zero] at hv
      exact crc16_foldl_state_ne r _ _ (crc16_update_lt s v hs) (crc16_update_lt s a hs)
        (crc16_update_byte_ne s v a hs hv)
    | succ k =>
      simp only [List.set_cons_succ, List.foldl_cons]
      simp only [List.getD_cons_succ] at hv
      simp only [List.length_cons] at hj
      exact ih k v _ (crc16_update_lt s a hs) (by omega) hv

theorem not16_lt (x : Nat) : not16 x < 65536 := by unfold not16; omega

theorem not16_inj (a b : Nat) (ha : a < 65536) (hb : b < 65536) (h : not16 a = not16 b) :
    a = b := by
  unfold not16 at h; omega

theorem crc16_le_lt (crc : Nat) (buf : List Nat) (len : Nat) : crc16_le crc buf len < 65536 :=
  not16_lt _

/-- Changing one byte inside the checked range changes the checksum. -/
theorem crc16_le_set_ne (crc : Nat) (buf : List Nat) (len j v : Nat)
    (hj : j < len) (hlen : len ≤ buf.length) (hv : v % 256 ≠ buf.getD j 0 % 256) :
    crc16_le crc (buf.set j v) len ≠ crc16_le crc buf len := by
  unfold crc16_le
  have hs : not16 crc < 65536 := not16_lt _
  have hne := crc16_foldl_set_ne (buf.take len) j v (not16 crc) hs
    (by rw [List.length_take]; omega)
    (by
      have : (List.take len buf).getD j 0 = buf.getD j 0 := by
        simp [List.getD_eq_getElem?_getD, List.getElem?_take, hj]
      rw [this]; exact hv)
  rw [← List.set_take] at hne
  have h1 := crc16_foldl_lt (List.take len (buf.set j v)) (not16 crc) hs
  have h2 := crc16_foldl_lt (List.take len buf) (not16 crc) hs
  intro h
  exact hne (not16_inj _ _ h1 h2 h)

/-! ## Lemmas on the codec -/

theorem exists_ten (l : List Nat) (h : 10 ≤ l.length) :
    ∃ a0 a1 a2 a3 a4 a5 a6 a7 a8 a9 r,
      l = a0 :: a1 :: a2 :: a3 :: a4 :: a5 :: a6 :: a7 :: a8 :: a9 :: r := by
  match l, h with
  | a0 :: a1 :: a2 :: a3 :: a4 :: a5 :: a6 :: a7 :: a8 :: a9 :: r, _ =>
    exact ⟨a0, a1, a2, a3, a4, a5, a6, a7, a8, a9, r, rfl⟩

theorem esp_fill_random_length (rnd : List Nat) (n : Nat) :
    (esp_fill_random rnd n).length = n := by
  simp [esp_fill_random]

theorem header_bytes_length (ty st sv c m : Nat) : (header_bytes ty st sv c m).length = 10 := rfl

theorem crc16_le_append (c : Nat) (xs ys : List Nat) (n : Nat) (h : xs.length = n) :
    crc16_le c (xs ++ ys) n = crc16_le c xs n := by
  unfold crc16_le
  rw [List.take_left' h, List.take_of_length_le (by omega)]

/-- The header writes of `pong_data_prepare` on a buffer of at least ten bytes. -/
theorem header_write (ty st sv m a0 a1 a2 a3 a4 a5 a6 a7 a8 a9 : Nat) (r : List Nat) :
    wr32 (wr16 (wr16 (wr8 (wr8 (a0 :: a1 :: a2 :: a3 :: a4 :: a5 :: a6 :: a7 :: a8 :: a9 :: r)
      0 ty) 1 st) 2 sv) 4 0) 6 m = header_bytes ty st sv 0 m ++ r := by
  simp [wr8, wr16, wr32, header_bytes]

/-- Writing the checksum field of a buffer that starts with a header. -/
theorem checksum_write (ty st sv c0 m c : Nat) (rest : List Nat) :
    wr16 (header_bytes ty st sv c0 m ++ rest) 4 c = header_bytes ty st sv c m ++ rest := by
  simp [wr8, wr16, header_bytes]

/-- The buffer `pong_data_prepare` writes: header, filler, untouched rest. -/
theorem pong_data_prepare_eq (sp : pong_send_param_t) (sq : seq_counters) (rnd : List Nat)
    (hlen : PONG_DATA_SIZE ≤ sp.len) (hbuf : sp.len ≤ sp.buffer.length) :
    pong_data_prepare sp sq rnd =
      some ({ sp with buffer :=
                (packet_bytes (kind_of sp.dest_mac) sp.state (sq.get (kind_of sp.dest_mac))
                  sp.magic (esp_fill_random rnd (sp.len - PONG_DATA_SIZE))
                  ++ sp.buffer.drop sp.len) },
            sq.incr (kind_of sp.dest_mac)) := by
  unfold PONG_DATA_SIZE at hlen
  have h10 : 10 ≤ sp.buffer.length := by omega
  obtain ⟨a0, a1, a2, a3, a4, a5, a6, a7, a8, a9, r, hb⟩ := exists_ten _ h10
  unfold pong_data_prepare
  rw [if_neg (by unfold PONG_DATA_SIZE; omega)]
  simp only [hb, kind_of, packet_bytes]
  generalize (if IS_BROADCAST_ADDR sp.dest_mac = true then pong_DATA_BROADCAST
    else pong_DATA_UNICAST) = ty
  rw [header_write]
  have htake : List.take PONG_DATA_SIZE (header_bytes ty sp.state (sq.get ty) 0 sp.magic ++ r)
      = header_bytes ty sp.state (sq.get ty) 0 sp.magic := List.take_left' rfl
  have hdrop : List.drop sp.len (header_bytes ty sp.state (sq.get ty) 0 sp.magic ++ r)
      = List.drop sp.len (a0 :: a1 :: a2 :: a3 :: a4 :: a5 :: a6 :: a7 :: a8 :: a9 :: r) := by
    obtain ⟨k, hk⟩ := Nat.exists_eq_add_of_le hlen
    rw [hk, Nat.add_comm]
    rfl
  rw [htake, hdrop, List.append_assoc, checksum_write, List.append_assoc]
  have hcrc : crc16_le UINT16_MAX
      (header_bytes ty sp.state (sq.get ty) 0 sp.magic ++
        (esp_fill_random rnd (sp.len - PONG_DATA_SIZE) ++
          List.drop sp.len (a0 :: a1 :: a2 :: a3 :: a4 :: a5 :: a6 :: a7 :: a8 :: a9 :: r)))
      sp.len =
      crc16_le UINT16_MAX
        (header_bytes ty sp.state (sq.get ty) 0 sp.magic ++
          esp_fill_random rnd (sp.len - PONG_DATA_SIZE))
        (PONG_DATA_SIZE + (esp_fill_random rnd (sp.len - PONG_DATA_SIZE)).length) := by
    rw [esp_fill_random_length, ← List.append_assoc]
    have : PONG_DATA_SIZE + (sp.len - PONG_DATA_SIZE) = sp.len := by
      unfold PONG_DATA_SIZE; omega
    rw [this]
    apply crc16_le_append
    rw [List.length_append, header_bytes_length, esp_fill_random_length]
    unfold PONG_DATA_SIZE; omega
  rw [hcrc]

theorem wr16_zero (d : List Nat) (o : Nat) : wr16 d o 0 = (d.set o 0).set (o + 1) 0 := by
  simp [wr16, wr8]

theorem rd8_set_ne (d : List Nat) (i j v : Nat) (h : i ≠ j) : rd8 (d.set i v) j = rd8 d j := by
  simp [rd8, List.getD_eq_getElem?_getD, List.getElem?_set_ne h]

theorem rd8_wr16_ne (d : List Nat) (o v j : Nat) (h1 : o ≠ j) (h2 : o + 1 ≠ j) :
    rd8 (wr16 d o v) j = rd8 d j := by
  unfold wr16 wr8
  rw [rd8_set_ne _ _ _ _ h2, rd8_set_ne _ _ _ _ h1]

theorem rd8_lt (d : List Nat) (o : Nat) : rd8 d o < 256 := by
  unfold rd8; omega

theorem rd16_header (ty st sv c m : Nat) (rest : List Nat) :
    rd16 (header_bytes ty st sv c m ++ rest) 4 = c % 65536 := by
  simp [rd16, rd8, header_bytes]
  omega

/-- The outcome of `pong_data_parse` on a buffer that starts with a header. -/
theorem pong_data_parse_header (ty st sv c m : Nat) (rest : List Nat) (n state0 seq0 : Nat)
    (magic0 : Int) (hn : PONG_DATA_SIZE ≤ n) :
    pong_data_parse (header_bytes ty st sv c m ++ rest) n state0 seq0 magic0 =
      if crc16_le UINT16_MAX (header_bytes ty st sv 0 m ++ rest) n = c % 65536 then
        { ret := ((ty % 256 : Nat) : Int), data := header_bytes ty st sv 0 m ++ rest,
          state := st % 256, seq := sv % 65536, magic := toInt32 m }
      else
        { ret := -1, data := header_bytes ty st sv 0 m ++ rest,
          state := st % 256, seq := sv % 65536, magic := toInt32 m } := by
  unfold pong_data_parse
  rw [if_neg (by omega)]
  have h1 : rd8 (header_bytes ty st sv c m ++ rest) 1 = st % 256 := by
    simp [rd8, header_bytes]
  have h2 : rd16 (header_bytes ty st sv c m ++ rest) 2 = sv % 65536 := by
    simp [rd16, rd8, header_bytes]; omega
  have h3 : toInt32 (rd32 (header_bytes ty st sv c m ++ rest) 6) = toInt32 m := by
    have : rd32 (header_bytes ty st sv c m ++ rest) 6 = m % 4294967296 := by
      simp [rd32, rd8, header_bytes]; omega
    rw [this]; simp [toInt32]
  have h4 : rd8 (header_bytes ty st sv 0 m ++ rest) 0 = ty % 256 := by
    simp [rd8, header_bytes]
  simp only [checksum_write, rd16_header, h1, h2, h3, h4]

theorem toUInt32_toInt32 (m : Nat) : toUInt32 (toInt32 m) = m % 4294967296 := by
  unfold toUInt32 toInt32
  split <;> omega

theorem kind_of_lt (mac : List Nat) : kind_of mac < 256 := by
  unfold kind_of pong_DATA_BROADCAST pong_DATA_UNICAST; split <;> omega

theorem packet_bytes_length (ty st sv m : Nat) (payload : List Nat) :
    (packet_bytes ty st sv m payload).length = PONG_DATA_SIZE + payload.length := by
  simp [packet_bytes, header_bytes, PONG_DATA_SIZE]; omega

/-- A whole packet parses to its fields. -/
theorem pong_data_parse_packet (ty st sv m : Nat) (payload rest : List Nat) (state0 seq0 : Nat)
    (magic0 : Int) :
    pong_data_parse (packet_bytes ty st sv m payload ++ rest)
        (PONG_DATA_SIZE + payload.length) state0 seq0 magic0 =
      { ret := ((ty % 256 : Nat) : Int),
        data := header_bytes ty st sv 0 m ++ (payload ++ rest),
        state := st % 256, seq := sv % 65536, magic := toInt32 m } := by
  unfold packet_bytes
  rw [List.append_assoc, pong_data_parse_header _ _ _ _ _ _ _ _ _ _ (by omega)]
  rw [if_pos]
  rw [← List.append_assoc, crc16_le_append _ _ _ _ (by
    rw [List.length_append, header_bytes_length]; rfl)]
  exact (Nat.mod_eq_of_lt (crc16_le_lt _ _ _)).symm

theorem xor_bit_lt (x k : Nat) (hx : x < 256) (hk : k < 8) : x ^^^ 2 ^ k < 256 := by
  have h2 : 2 ^ k < 2 ^ 8 := Nat.pow_lt_pow_right (by omega) hk
  exact Nat.xor_lt_two_pow (n := 8) hx h2

theorem xor_bit_ne (x k : Nat) : x ^^^ 2 ^ k ≠ x := by
  intro h
  have h0 : x ^^^ 2 ^ k = x ^^^ 0 := by rw [Nat.xor_zero]; exact h
  have := Nat.xor_right_injective h0
  have hp : 0 < 2 ^ k := Nat.pos_pow_of_pos k (by omega)
  omega

theorem rd8_set_eq (d : List Nat) (i v : Nat) (h : i < d.length) :
    rd8 (d.set i v) i = v % 256 := by
  simp [rd8, List.getD_eq_getElem?_getD, List.getElem?_set, h]

/-- A packet with one bit flipped does not parse. -/
theorem flip_bit_rejected (ty st sv m : Nat) (payload : List Nat) (i state0 seq0 : Nat)
    (magic0 : Int) (hi : i < 8 * (PONG_DATA_SIZE + payload.length)) :
    (pong_data_parse (flip_bit (packet_bytes ty st sv m payload) i)
      (PONG_DATA_SIZE + payload.length) state0 seq0 magic0).ret = -1 := by
  have hj : i / 8 < PONG_DATA_SIZE + payload.length := by omega
  have hk : i % 8 < 8 := by omega
  generalize hp : packet_bytes ty st sv m payload = pkt
  have hplen : pkt.length = PONG_DATA_SIZE + payload.length := by
    rw [← hp]; exact packet_bytes_length _ _ _ _ _
  have hz : wr16 pkt 4 0 = header_bytes ty st sv 0 m ++ payload := by
    rw [← hp]; unfold packet_bytes; exact checksum_write _ _ _ _ _ _ _
  generalize hc : crc16_le UINT16_MAX (header_bytes ty st sv 0 m ++ payload)
      (PONG_DATA_SIZE + payload.length) = c at *
  have hclt : c < 65536 := by rw [← hc]; exact crc16_le_lt _ _ _
  have hr : rd16 pkt 4 = c := by
    rw [← hp]; unfold packet_bytes; rw [hc, rd16_header]; omega
  unfold pong_data_parse flip_bit
  generalize hv : rd8 pkt (i / 8) ^^^ 2 ^ (i % 8) = v
  have hvlt : v < 256 := by rw [← hv]; exact xor_bit_lt _ _ (rd8_lt _ _) hk
  have hvne : v ≠ rd8 pkt (i / 8) := by rw [← hv]; exact xor_bit_ne _ _
  generalize i / 8 = j at *
  rw [if_neg (by omega)]
  have key : crc16_le UINT16_MAX (wr16 (pkt.set j v) 4 0) (PONG_DATA_SIZE + payload.length)
      ≠ rd16 (pkt.set j v) 4 := by
    by_cases h4 : j = 4
    · subst h4
      have hw : wr16 (pkt.set 4 v) 4 0 = wr16 pkt 4 0 := by
        rw [wr16_zero, wr16_zero, List.set_set]
      have hrd : rd16 (pkt.set 4 v) 4 = v + 256 * rd8 pkt 5 := by
        show rd8 (pkt.set 4 v) 4 + 256 * rd8 (pkt.set 4 v) 5 = v + 256 * rd8 pkt 5
        rw [rd8_set_eq _ _ _ (by unfold PONG_DATA_SIZE at hplen; omega),
          rd8_set_ne _ _ _ _ (by omega), Nat.mod_eq_of_lt hvlt]
      have hr5 : rd8 pkt 4 + 256 * rd8 pkt 5 = c := hr
      rw [hw, hz, hc, hrd]
      omega
    · by_cases h5 : j = 5
      · subst h5
        have hw : wr16 (pkt.set 5 v) 4 0 = wr16 pkt 4 0 := by
          rw [wr16_zero, wr16_zero, List.set_comm _ _ _ (by omega : 5 ≠ 4), List.set_set]
        have hrd : rd16 (pkt.set 5 v) 4 = rd8 pkt 4 + 256 * v := by
          show rd8 (pkt.set 5 v) 4 + 256 * rd8 (pkt.set 5 v) 5 = rd8 pkt 4 + 256 * v
          rw [rd8_set_eq _ _ _ (by unfold PONG_DATA_SIZE at hplen; omega),
            rd8_set_ne _ _ _ _ (by omega), Nat.mod_eq_of_lt hvlt]
        have hr5 : rd8 pkt 4 + 256 * rd8 pkt 5 = c := hr
        rw [hw, hz, hc, hrd]
        omega
      · have hw : wr16 (pkt.set j v) 4 0 = (wr16 pkt 4 0).set j v := by
          rw [wr16_zero, wr16_zero, List.set_comm _ _ _ h4, List.set_comm _ _ _ h5]
        have hrd : rd16 (pkt.set j v) 4 = c := by
          rw [← hr]; unfold rd16
          rw [rd8_set_ne _ _ _ _ h4, rd8_set_ne _ _ _ _ h5]
        rw [hw, hrd, hz, ← hc]
        apply crc16_le_set_ne
        · exact hj
        · rw [← hz, wr16_zero]; simp [hplen]
        · have : rd8 (header_bytes ty st sv 0 m ++ payload) j = rd8 pkt j := by
            rw [← hz]; exact rd8_wr16_ne _ _ _ _ (Ne.symm h4) (Ne.symm h5)
          unfold rd8 at this hvne
          rw [this, Nat.mod_eq_of_lt hvlt]
          exact hvne
  simp only [if_neg key]

/-- When the length check passes, `pong_data_parse` fails exactly on a checksum mismatch. -/
theorem pong_data_parse_ret (data : List Nat) (data_len state0 seq0 : Nat) (magic0 : Int)
    (hn : PONG_DATA_SIZE ≤ data_len) :
    (pong_data_parse data data_len state0 seq0 magic0).ret = -1 ↔
      crc16_le UINT16_MAX (wr16 data 4 0) data_len ≠ rd16 data 4 := by
  unfold pong_data_parse
  rw [if_neg (by omega)]
  by_cases h : crc16_le UINT16_MAX (wr16 data 4 0) data_len = rd16 data 4
  · simp only [if_pos h]
    constructor
    · intro h1
      have : (0 : Int) ≤ ((rd8 (wr16 data 4 0) 0 : Nat) : Int) := Int.ofNat_nonneg _
      omega
    · intro h1; exact absurd h h1
  · simp only [if_neg h]
    simp [h]

/-! ## Lemmas on the task -/

theorem next_packet_length (st : task_state) (env : platform) (mac : List Nat)
    (hlen : PONG_DATA_SIZE ≤ st.send_param.len) :
    (next_packet st env mac).length = st.send_param.len := by
  unfold next_packet
  rw [packet_bytes_length, esp_fill_random_length]; omega

/-- The send sites when the assertion of `pong_data_prepare` holds and the transport
accepts the packet. -/
theorem prepare_and_send_ok (st : task_state) (env : platform) (mac : List Nat) (elect : Bool)
    (hlen : PONG_DATA_SIZE ≤ st.send_param.len)
    (hbuf : st.send_param.len ≤ st.send_param.buffer.length) (hsend : env.send_ok = true) :
    prepare_and_send st env mac elect =
      ({ st with
          send_param :=
            { st.send_param with
              dest_mac := mac,
              buffer := (next_packet st env mac ++ st.send_param.buffer.drop st.send_param.len),
              broadcast := (if elect then false else st.send_param.broadcast),
              unicast := (if elect then true else st.send_param.unicast) },
          s_pong_seq := st.s_pong_seq.incr (kind_of mac) },
        [{ dest := mac, data := next_packet st env mac }]) := by
  unfold prepare_and_send
  have h := pong_data_prepare_eq { st.send_param with dest_mac := mac } st.s_pong_seq env.rnd
    hlen hbuf
  simp only [] at h
  rw [h]
  have ht : List.take st.send_param.len
      (next_packet st env mac ++ st.send_param.buffer.drop st.send_param.len)
      = next_packet st env mac := List.take_left' (next_packet_length st env mac hlen)
  simp only [hsend]
  cases elect <;> simp [next_packet, ht] <;> exact ht

/-- The packet the task sends next parses to the fields of the session. -/
theorem pong_data_parse_next_packet (st : task_state) (env : platform) (mac : List Nat)
    (state0 seq0 : Nat) (magic0 : Int) (hlen : PONG_DATA_SIZE ≤ st.send_param.len) :
    pong_data_parse (next_packet st env mac) st.send_param.len state0 seq0 magic0 =
      { ret := ((kind_of mac : Nat) : Int),
        data := header_bytes (kind_of mac) st.send_param.state
          (st.s_pong_seq.get (kind_of mac)) 0 st.send_param.magic
          ++ esp_fill_random env.rnd (st.send_param.len - PONG_DATA_SIZE),
        state := st.send_param.state % 256,
        seq := st.s_pong_seq.get (kind_of mac) % 65536,
        magic := toInt32 st.send_param.magic } := by
  have hl : PONG_DATA_SIZE + (esp_fill_random env.rnd (st.send_param.len - PONG_DATA_SIZE)).length
      = st.send_param.len := by
    rw [esp_fill_random_length]; omega
  have hp := pong_data_parse_packet (kind_of mac) st.send_param.state
    (st.s_pong_seq.get (kind_of mac)) st.send_param.magic
    (esp_fill_random env.rnd (st.send_param.len - PONG_DATA_SIZE)) [] state0 seq0 magic0
  rw [hl, List.append_nil, List.append_nil, Nat.mod_eq_of_lt (kind_of_lt _)] at hp
  exact hp

theorem kind_of_unicast (mac : List Nat) (h : mac ≠ s_example_broadcast_mac) :
    kind_of mac = pong_DATA_UNICAST := by
  simp [kind_of, IS_BROADCAST_ADDR, h]

theorem kind_of_broadcast : kind_of s_example_broadcast_mac = pong_DATA_BROADCAST := by
  simp [kind_of, IS_BROADCAST_ADDR]

/-- The reception case when the packet does not parse as a broadcast or a unicast. -/
theorem on_recv_cb_other (st : task_state) (env : platform) (mac data : List Nat)
    (hb : (pong_data_parse data (data.length % 65536) st.recv_state st.recv_seq
      st.recv_magic).ret ≠ (pong_DATA_BROADCAST : Nat))
    (hu : (pong_data_parse data (data.length % 65536) st.recv_state st.recv_seq
      st.recv_magic).ret ≠ (pong_DATA_UNICAST : Nat)) :
    on_recv_cb st env mac data =
      ({ st with
          recv_state := (pong_data_parse data (data.length % 65536) st.recv_state st.recv_seq
            st.recv_magic).state,
          recv_seq := (pong_data_parse data (data.length % 65536) st.recv_state st.recv_seq
            st.recv_magic).seq,
          recv_magic := (pong_data_parse data (data.length % 65536) st.recv_state st.recv_seq
            st.recv_magic).magic }, []) := by
  unfold on_recv_cb
  simp only [if_neg hb, if_neg hu]

/-- The reception case for a unicast packet. -/
theorem on_recv_cb_unicast (st : task_state) (env : platform) (mac data : List Nat)
    (hu : (pong_data_parse data (data.length % 65536) st.recv_state st.recv_seq
      st.recv_magic).ret = (pong_DATA_UNICAST : Nat)) :
    on_recv_cb st env mac data =
      ({ st with
          recv_state := (pong_data_parse data (data.length % 65536) st.recv_state st.recv_seq
            st.recv_magic).state,
          recv_seq := (pong_data_parse data (data.length % 65536) st.recv_state st.recv_seq
            st.recv_magic).seq,
          recv_magic := (pong_data_parse data (data.length % 65536) st.recv_state st.recv_seq
            st.recv_magic).magic,
          send_param := { st.send_param with broadcast := false } }, []) := by
  unfold on_recv_cb
  have hb : (pong_data_parse data (data.length % 65536) st.recv_state st.recv_seq
      st.recv_magic).ret ≠ (pong_DATA_BROADCAST : Nat) := by
    rw [hu]; simp [pong_DATA_BROADCAST, pong_DATA_UNICAST]
  simp only [if_neg hb, if_pos hu]

theorem pong_task_step_running (st : task_state) (env : platform) (evt : pong_event_t)
    (h : st.status = task_status.running) :
    pong_task_step st env evt =
      match evt with
      | pong_event_t.send_cb mac_addr status => on_send_cb st env mac_addr status
      | pong_event_t.recv_cb mac_addr data => on_recv_cb st env mac_addr data
      | pong_event_t.other _ => (st, []) := by
  unfold pong_task_step
  rw [h]

theorem pong_task_step_not_running (st : task_state) (env : platform) (evt : pong_event_t)
    (h : st.status ≠ task_status.running) : pong_task_step st env evt = (st, []) := by
  unfold pong_task_step
  cases hs : st.status with
  | running => exact absurd hs h
  | deleted => rfl
  | aborted => rfl
@[simp]
theorem mark_received_unicast (sp : pong_send_param_t) :
    (mark_received sp).unicast = sp.unicast := by
  unfold mark_received; split <;> rfl

@[simp]
theorem mark_received_broadcast (sp : pong_send_param_t) :
    (mark_received sp).broadcast = sp.broadcast := by
  unfold mark_received; split <;> rfl

@[simp]
theorem mark_received_magic (sp : pong_send_param_t) :
    (mark_received sp).magic = sp.magic := by
  unfold mark_received; split <;> rfl

@[simp]
theorem mark_received_count (sp : pong_send_param_t) :
    (mark_received sp).count = sp.count := by
  unfold mark_received; split <;> rfl

@[simp]
theorem mark_received_len (sp : pong_send_param_t) :
    (mark_received sp).len = sp.len := by
  unfold mark_received; split <;> rfl

@[simp]
theorem mark_received_buffer (sp : pong_send_param_t) :
    (mark_received sp).buffer = sp.buffer := by
  unfold mark_received; split <;> rfl

@[simp]
theorem mark_received_dest_mac (sp : pong_send_param_t) :
    (mark_received sp).dest_mac = sp.dest_mac := by
  unfold mark_received; split <;> rfl

/-- The reception case for a broadcast packet whose sender is known or can be
registered: the tie-break decides between electing and only bookkeeping. -/
theorem on_recv_cb_broadcast (st : task_state) (env : platform) (mac data : List Nat)
    (hret : (pong_data_parse data (data.length % 65536) st.recv_state st.recv_seq
      st.recv_magic).ret = (pong_DATA_BROADCAST : Nat))
    (hpeer : st.peers.contains mac = true ∨ (env.malloc_ok = true ∧ env.add_peer_ok = true)) :
    on_recv_cb st env mac data =
      if (pong_data_parse data (data.length % 65536) st.recv_state st.recv_seq
            st.recv_magic).state = 1 ∧ st.send_param.unicast = false ∧
          toUInt32 (pong_data_parse data (data.length % 65536) st.recv_state st.recv_seq
            st.recv_magic).magic ≤ st.send_param.magic then
        prepare_and_send (after_broadcast st (pong_data_parse data (data.length % 65536)
          st.recv_state st.recv_seq st.recv_magic) mac) env mac true
      else
        (after_broadcast st (pong_data_parse data (data.length % 65536)
          st.recv_state st.recv_seq st.recv_magic) mac, []) := by
  unfold on_recv_cb
  generalize pong_data_parse data (data.length % 65536) st.recv_state st.recv_seq
    st.recv_magic = r at *
  have h1 : ¬ (st.peers.contains mac = false ∧ env.malloc_ok = false) := by
    rintro ⟨a, b⟩
    rcases hpeer with h | ⟨h, _⟩
    · rw [h] at a; exact Bool.noConfusion a
    · rw [h] at b; exact Bool.noConfusion b
  have h2 : ¬ (st.peers.contains mac = false ∧ env.add_peer_ok = false) := by
    rintro ⟨a, b⟩
    rcases hpeer with h | ⟨_, h⟩
    · rw [h] at a; exact Bool.noConfusion a
    · rw [h] at b; exact Bool.noConfusion b
  simp only [if_pos hret, if_neg h1, if_neg h2, mark_received_unicast, mark_received_magic,
    ge_iff_le, after_broadcast]
  by_cases hs : r.state = 1
  · by_cases hc : st.send_param.unicast = false ∧ toUInt32 r.magic ≤ st.send_param.magic
    · rw [if_pos hs, if_pos hc, if_pos ⟨hs, hc⟩]
    · rw [if_pos hs, if_neg hc, if_neg (fun h => hc h.2)]
  · rw [if_neg hs, if_neg (fun h => hs h.1)]

/-- The completion case for a send to a peer address: the count goes down by one
and either the task ends or the next packet goes to the same address. -/
theorem on_send_cb_unicast (st : task_state) (env : platform) (mac : List Nat) (status : Nat)
    (hmac : mac ≠ s_example_broadcast_mac) :
    on_send_cb st env mac status =
      if (st.send_param.count + 65535) % 65536 = 0 then
        ({ st with is_broadcast := false,
                   send_param := { st.send_param with
                     count := (st.send_param.count + 65535) % 65536 },
                   status := task_status.deleted }, [])
      else
        prepare_and_send
          { st with is_broadcast := false,
                    send_param := { st.send_param with
                      count := (st.send_param.count + 65535) % 65536 } } env mac false := by
  unfold on_send_cb
  have hb : IS_BROADCAST_ADDR mac = false := by simp [IS_BROADCAST_ADDR, hmac]
  simp only [hb]
  by_cases h : (st.send_param.count + 65535) % 65536 = 0
  · simp [h]
  · simp [h]

/-- The completion case for a send to the broadcast address: ignored once the
`broadcast` flag is clear, otherwise followed by the next broadcast. -/
theorem on_send_cb_broadcast (st : task_state) (env : platform) (status : Nat) :
    on_send_cb st env s_example_broadcast_mac status =
      if st.send_param.broadcast = false then ({ st with is_broadcast := true }, [])
      else prepare_and_send { st with is_broadcast := true } env s_example_broadcast_mac
        false := by
  unfold on_send_cb
  have hb : IS_BROADCAST_ADDR s_example_broadcast_mac = true := by simp [IS_BROADCAST_ADDR]
  simp only [hb]
  by_cases h : st.send_param.broadcast = false
  · simp [h]
  · simp [h]

/-- The send sites leave the count and the flags alone unless they elect. -/
theorem prepare_and_send_count (st : task_state) (env : platform) (mac : List Nat)
    (elect : Bool) :
    (prepare_and_send st env mac elect).1.send_param.count = st.send_param.count := by
  unfold prepare_and_send pong_data_prepare
  by_cases h : PONG_DATA_SIZE ≤ st.send_param.len
  · rw [if_neg (by simpa using h)]
    simp only []
    by_cases hs : env.send_ok = false
    · simp [hs]
    · cases elect <;> simp [hs]
  · rw [if_pos (by simpa using h)]

/-- The reception case for a broadcast packet whose sender can not be registered:
the task ends with the parameter block untouched and nothing sent. -/
theorem on_recv_cb_broadcast_no_peer (st : task_state) (env : platform) (mac data : List Nat)
    (hret : (pong_data_parse data (data.length % 65536) st.recv_state st.recv_seq
      st.recv_magic).ret = (pong_DATA_BROADCAST : Nat))
    (hpeer : ¬ (st.peers.contains mac = true ∨
      (env.malloc_ok = true ∧ env.add_peer_ok = true))) :
    (on_recv_cb st env mac data).1.send_param = st.send_param ∧
    (on_recv_cb st env mac data).1.s_pong_seq = st.s_pong_seq ∧
    (on_recv_cb st env mac data).1.status ≠ task_status.running ∧
    (on_recv_cb st env mac data).2 = [] := by
  unfold on_recv_cb
  have hc : st.peers.contains mac = false := by
    cases h : st.peers.contains mac
    · rfl
    · exact absurd (Or.inl h) hpeer
  simp only [if_pos hret, hc, true_and]
  by_cases hm : env.malloc_ok = false
  · rw [if_pos hm]
    exact ⟨rfl, rfl, by simp, rfl⟩
  · rw [if_neg hm]
    have ha : env.add_peer_ok = false := by
      cases h : env.add_peer_ok
      · rfl
      · exact absurd (Or.inr ⟨by simpa using hm, h⟩) hpeer
    rw [if_pos ha]
    exact ⟨rfl, rfl, by simp, rfl⟩

/-- A reception that sets the `unicast` flag or sends satisfies the tie-break. -/
theorem on_recv_cb_elects (st : task_state) (env : platform) (mac data : List Nat)
    (h : (st.send_param.unicast = false ∧
        (on_recv_cb st env mac data).1.send_param.unicast = true) ∨
      (on_recv_cb st env mac data).2 ≠ []) :
    (pong_data_parse data (data.length % 65536) st.recv_state st.recv_seq
      st.recv_magic).ret = (pong_DATA_BROADCAST : Nat) ∧
    (pong_data_parse data (data.length % 65536) st.recv_state st.recv_seq
      st.recv_magic).state = 1 ∧
    st.send_param.unicast = false ∧
    toUInt32 (pong_data_parse data (data.length % 65536) st.recv_state st.recv_seq
      st.recv_magic).magic ≤ st.send_param.magic := by
  by_cases hb : (pong_data_parse data (data.length % 65536) st.recv_state st.recv_seq
      st.recv_magic).ret = (pong_DATA_BROADCAST : Nat)
  · by_cases hpeer : st.peers.contains mac = true ∨
        (env.malloc_ok = true ∧ env.add_peer_ok = true)
    · rw [on_recv_cb_broadcast st env mac data hb hpeer] at h
      split at h
      · rename_i hc
        exact ⟨hb, hc.1, hc.2.1, hc.2.2⟩
      · exfalso
        rcases h with ⟨h1, h2⟩ | h2
        · simp [after_broadcast, h1] at h2
        · exact h2 rfl
    · obtain ⟨h1, _, _, h2⟩ := on_recv_cb_broadcast_no_peer st env mac data hb hpeer
      rw [h1, h2] at h
      exfalso
      rcases h with ⟨h3, h4⟩ | h4
      · rw [h3] at h4; exact Bool.noConfusion h4
      · exact h4 rfl
  · exfalso
    by_cases hu : (pong_data_parse data (data.length % 65536) st.recv_state st.recv_seq
        st.recv_magic).ret = (pong_DATA_UNICAST : Nat)
    · rw [on_recv_cb_unicast st env mac data hu] at h
      rcases h with ⟨h3, h4⟩ | h4
      · simp [h3] at h4
      · exact h4 rfl
    · rw [on_recv_cb_other st env mac data hb hu] at h
      rcases h with ⟨h3, h4⟩ | h4
      · simp [h3] at h4
      · exact h4 rfl

/-- The completion case never raises the count: it stays for the broadcast address and
goes down by one, modulo 2^16, for any other address. -/
theorem on_send_cb_count (st : task_state) (env : platform) (mac : List Nat) (status : Nat) :
    (on_send_cb st env mac status).1.send_param.count =
      if mac = s_example_broadcast_mac then st.send_param.count
      else (st.send_param.count + 65535) % 65536 := by
  by_cases hmac : mac = s_example_broadcast_mac
  · rw [if_pos hmac, hmac, on_send_cb_broadcast]
    split
    · rfl
    · rw [prepare_and_send_count]
  · rw [if_neg hmac, on_send_cb_unicast st env mac status hmac]
    split
    · rfl
    · rw [prepare_and_send_count]

/-- A completion for the broadcast address when the `broadcast` flag is clear. -/
theorem pong_task_step_stray_completion (st : task_state) (env : platform) (status : Nat)
    (hrun : st.status = task_status.running) (hb : st.send_param.broadcast = false) :
    pong_task_step st env (pong_event_t.send_cb s_example_broadcast_mac status)
      = ({ st with is_broadcast := true }, []) := by
  rw [pong_task_step_running st env _ hrun]
  simp only []
  rw [on_send_cb_broadcast, if_pos hb]

/-- The last unicast completion: the count reaches zero and the task ends. -/
theorem unicast_completion_last (st : task_state) (env : platform) (mac : List Nat)
    (status : Nat) (hrun : st.status = task_status.running)
    (hmac : mac ≠ s_example_broadcast_mac) (hc : st.send_param.count = 1) :
    ∃ st1, pong_task_step st env (pong_event_t.send_cb mac status) = (st1, []) ∧
      st1.status = task_status.deleted ∧ st1.send_param.count = 0 := by
  rw [pong_task_step_running st env _ hrun]
  simp only []
  rw [on_send_cb_unicast st env mac status hmac, if_pos (by rw [hc])]
  exact ⟨_, rfl, rfl, by simp [hc]⟩

/-- A unicast completion before the last: one more packet goes to the same address. -/
theorem unicast_completion_next (st : task_state) (env : platform) (mac : List Nat)
    (status : Nat) (hrun : st.status = task_status.running)
    (hmac : mac ≠ s_example_broadcast_mac)
    (hc2 : 2 ≤ st.send_param.count) (hc16 : st.send_param.count < 65536)
    (hlen : PONG_DATA_SIZE ≤ st.send_param.len)
    (hbuf : st.send_param.len ≤ st.send_param.buffer.length) (hsend : env.send_ok = true) :
    ∃ st1 pkt, pong_task_step st env (pong_event_t.send_cb mac status)
        = (st1, [{ dest := mac, data := pkt }]) ∧
      st1.status = task_status.running ∧
      st1.send_param.unicast = st.send_param.unicast ∧
      st1.send_param.broadcast = st.send_param.broadcast ∧
      st1.send_param.count + 1 = st.send_param.count ∧
      st1.send_param.dest_mac = mac ∧
      st1.send_param.len = st.send_param.len ∧
      st1.send_param.len ≤ st1.send_param.buffer.length ∧
      (pong_data_parse pkt st.send_param.len 0 0 0).ret = (pong_DATA_UNICAST : Nat) := by
  rw [pong_task_step_running st env _ hrun]
  simp only []
  rw [on_send_cb_unicast st env mac status hmac, if_neg (by omega)]
  generalize hst0 :
    ({ st with is_broadcast := false,
               send_param := { st.send_param with
                               count := (st.send_param.count + 65535) % 65536 } } :
      task_state) = st0
  have hlen0 : PONG_DATA_SIZE ≤ st0.send_param.len := by rw [← hst0]; exact hlen
  have hbuf0 : st0.send_param.len ≤ st0.send_param.buffer.length := by rw [← hst0]; exact hbuf
  have hl0 : st0.send_param.len = st.send_param.len := by rw [← hst0]
  rw [prepare_and_send_ok st0 env mac false hlen0 hbuf0 hsend]
  refine ⟨_, _, rfl, ?_, ?_, ?_, ?_, rfl, ?_, ?_, ?_⟩
  · rw [← hst0]; exact hrun
  · rw [← hst0]; rfl
  · rw [← hst0]; rfl
  · rw [← hst0]
    show (st.send_param.count + 65535) % 65536 + 1 = st.send_param.count
    omega
  · exact hl0
  · show st0.send_param.len ≤
      (next_packet st0 env mac ++ st0.send_param.buffer.drop st0.send_param.len).length
    rw [List.length_append, next_packet_length st0 env mac hlen0]
    omega
  · rw [← hl0, pong_data_parse_next_packet st0 env mac 0 0 0 hlen0, kind_of_unicast mac hmac]

/-- The countdown over any list of unicast completions whose length is the count. -/
theorem unicast_countdown (peer : List Nat) (hpeer : peer ≠ s_example_broadcast_mac) :
    ∀ (evs : List (platform × Nat)) (st : task_state),
      st.status = task_status.running → st.send_param.unicast = true →
      st.send_param.dest_mac = peer → st.send_param.count = evs.length →
      1 ≤ evs.length → evs.length < 65536 →
      PONG_DATA_SIZE ≤ st.send_param.len → st.send_param.len ≤ st.send_param.buffer.length →
      (∀ e ∈ evs, e.1.send_ok = true) →
      (pong_task_run st
        (evs.map (fun e => (e.1, pong_event_t.send_cb peer e.2)))).1.status
          = task_status.deleted ∧
      (∃ pkts : List (List Nat), pkts.length + 1 = evs.length ∧
        (∀ p ∈ pkts, (pong_data_parse p st.send_param.len 0 0 0).ret
          = (pong_DATA_UNICAST : Nat)) ∧
        (pong_task_run st (evs.map (fun e => (e.1, pong_event_t.send_cb peer e.2)))).2
          = pkts.map (fun p => [({ dest := peer, data := p } : sent)]) ++ [[]]) ∧
      (∀ k, k < evs.length →
        (pong_task_run st ((evs.map
          (fun e => (e.1, pong_event_t.send_cb peer e.2))).take k)).1.status
            = task_status.running ∧
        (pong_task_run st ((evs.map
          (fun e => (e.1, pong_event_t.send_cb peer e.2))).take k)).1.send_param.count
            = evs.length - k ∧
        (pong_task_run st ((evs.map
          (fun e => (e.1, pong_event_t.send_cb peer e.2))).take k)).1.send_param.dest_mac
            = peer ∧
        (pong_task_run st ((evs.map
          (fun e => (e.1, pong_event_t.send_cb peer e.2))).take k)).1.send_param.unicast
            = true) := by
  intro evs
  induction evs with
  | nil => intro st _ _ _ _ h1; simp at h1
  | cons e rest ih =>
    intro st hrun huni hdest hcount _ h16 hlen hbuf hok
    simp only [List.length_cons] at hcount h16
    have hoke : e.1.send_ok = true := hok e (List.mem_cons_self _ _)
    by_cases hrest : rest.length = 0
    · have hnil : rest = [] := List.length_eq_zero.mp hrest
      subst hnil
      obtain ⟨st1, hstep, hdel, _⟩ := unicast_completion_last st e.1 peer e.2 hrun hpeer
        (by rw [hcount]; rfl)
      refine ⟨?_, ⟨[], rfl, by simp, ?_⟩, ?_⟩
      · simp only [List.map_cons, List.map_nil, pong_task_run, hstep]
        exact hdel
      · simp only [List.map_cons, List.map_nil, pong_task_run, hstep, List.nil_append]
      · intro k hk
        have hk0 : k = 0 := by simp at hk; omega
        subst hk0
        simp only [List.take_zero, pong_task_run]
        exact ⟨hrun, by rw [hcount]; rfl, hdest, huni⟩
    · obtain ⟨st1, pkt, hstep, hrun1, huni1, _, hcount1, hdest1, hlen1, hbuf1, hpkt⟩ :=
        unicast_completion_next st e.1 peer e.2 hrun hpeer (by omega) (by omega) hlen hbuf hoke
      have hih := ih st1 hrun1 (by rw [huni1]; exact huni) hdest1 (by omega) (by omega)
        (by omega) (by rw [hlen1]; exact hlen) hbuf1
        (fun x hx => hok x (List.mem_cons_of_mem _ hx))
      obtain ⟨hfin, ⟨pkts, hplen, hpp, hpout⟩, hks⟩ := hih
      refine ⟨?_, ⟨pkt :: pkts, ?_, ?_, ?_⟩, ?_⟩
      · simp only [List.map_cons, pong_task_run, hstep]
        exact hfin
      · simp only [List.length_cons]; omega
      · intro p hp
        rcases List.mem_cons.mp hp with h | h
        · rw [h]; exact hpkt
        · rw [← hlen1]; exact hpp p h
      · simp only [List.map_cons, pong_task_run, hstep, hpout, List.cons_append]
      · intro k hk
        cases k with
        | zero =>
          simp only [List.take_zero, pong_task_run]
          exact ⟨hrun, by rw [hcount]; simp, hdest, huni⟩
        | succ j =>
          simp only [List.length_cons] at hk
          obtain ⟨a, b, c, d⟩ := hks j (by omega)
          simp only [List.map_cons, List.take_succ_cons, pong_task_run, hstep]
          refine ⟨a, ?_, c, d⟩
          rw [b]; simp only [List.length_cons]; omega

/-- The call `pong_data_prepare` rewrites the buffer and nothing else. -/
theorem pong_data_prepare_fields (sp sp1 : pong_send_param_t) (sq sq1 : seq_counters)
    (rnd : List Nat) (h : pong_data_prepare sp sq rnd = some (sp1, sq1)) :
    sp1 = { sp with buffer := sp1.buffer } ∧ sq1 = sq.incr (kind_of sp.dest_mac) := by
  unfold pong_data_prepare at h
  split at h
  · exact Option.noConfusion h
  · simp only [Option.some.injEq, Prod.mk.injEq] at h
    obtain ⟨h1, h2⟩ := h
    rw [← h1, ← h2]
    exact ⟨rfl, rfl⟩

/-- What a send site can do to the task state: the parameter block keeps its role
state, magic, count and length, the target becomes `mac`, the flags change only at
an election whose send succeeds, the task stays running only if the send succeeds,
and at most one send, to `mac`, is issued. -/
theorem prepare_and_send_cases (st : task_state) (env : platform) (mac : List Nat)
    (elect : Bool) :
    (prepare_and_send st env mac elect).1.send_param.state = st.send_param.state ∧
    (prepare_and_send st env mac elect).1.send_param.magic = st.send_param.magic ∧
    (prepare_and_send st env mac elect).1.send_param.count = st.send_param.count ∧
    (prepare_and_send st env mac elect).1.send_param.len = st.send_param.len ∧
    (prepare_and_send st env mac elect).1.send_param.dest_mac = mac ∧
    (prepare_and_send st env mac elect).1.peers = st.peers ∧
    (((prepare_and_send st env mac elect).1.send_param.unicast = st.send_param.unicast ∧
      (prepare_and_send st env mac elect).1.send_param.broadcast = st.send_param.broadcast ∧
      (elect = true → (prepare_and_send st env mac elect).1.status ≠ task_status.running)) ∨
     (elect = true ∧ env.send_ok = true ∧
      (prepare_and_send st env mac elect).1.send_param.unicast = true ∧
      (prepare_and_send st env mac elect).1.send_param.broadcast = false ∧
      (prepare_and_send st env mac elect).1.status = st.status ∧
      ∃ pkt, (prepare_and_send st env mac elect).2 = [{ dest := mac, data := pkt }])) ∧
    ((prepare_and_send st env mac elect).1.status = task_status.running →
      st.status = task_status.running ∧ env.send_ok = true ∧
      ∃ pkt, (prepare_and_send st env mac elect).2 = [{ dest := mac, data := pkt }]) ∧
    ((prepare_and_send st env mac elect).2 = [] ∨
      ∃ pkt, (prepare_and_send st env mac elect).2 = [{ dest := mac, data := pkt }]) := by
  unfold prepare_and_send
  cases hp : pong_data_prepare { st.send_param with dest_mac := mac } st.s_pong_seq env.rnd with
  | none =>
    refine ⟨rfl, rfl, rfl, rfl, rfl, rfl, Or.inl ⟨rfl, rfl, fun _ => by simp⟩, ?_, Or.inl rfl⟩
    intro h; simp at h
  | some r =>
    obtain ⟨sp1, sq1⟩ := r
    obtain ⟨h1, _⟩ := pong_data_prepare_fields _ _ _ _ _ hp
    have hs : sp1.state = st.send_param.state := by rw [h1]
    have hm : sp1.magic = st.send_param.magic := by rw [h1]
    have hc : sp1.count = st.send_param.count := by rw [h1]
    have hl : sp1.len = st.send_param.len := by rw [h1]
    have hd : sp1.dest_mac = mac := by rw [h1]
    have hu : sp1.unicast = st.send_param.unicast := by rw [h1]
    have hb : sp1.broadcast = st.send_param.broadcast := by rw [h1]
    dsimp only
    by_cases hok : env.send_ok = false
    · rw [if_pos hok]
      refine ⟨hs, hm, hc, hl, hd, rfl, Or.inl ⟨hu, hb, fun _ => by simp⟩, ?_,
        Or.inr ⟨_, by rw [hd]⟩⟩
      intro h; simp at h
    · rw [if_neg hok]
      have hok1 : env.send_ok = true := by simpa using hok
      cases elect with
      | true =>
        rw [if_pos rfl]
        exact ⟨hs, hm, hc, hl, hd, rfl, Or.inr ⟨rfl, hok1, rfl, rfl, rfl, _, by rw [hd]⟩,
          fun h => ⟨h, hok1, _, by rw [hd]⟩, Or.inr ⟨_, by rw [hd]⟩⟩
      | false =>
        rw [if_neg Bool.false_ne_true]
        exact ⟨hs, hm, hc, hl, hd, rfl, Or.inl ⟨hu, hb, fun h => Bool.noConfusion h⟩,
          fun h => ⟨h, hok1, _, by rw [hd]⟩, Or.inr ⟨_, by rw [hd]⟩⟩
theorem mark_received_state (sp : pong_send_param_t) :
    (mark_received sp).state = sp.state ∨ (sp.state = 0 ∧ (mark_received sp).state = 1) := by
  unfold mark_received
  by_cases h : sp.state = 0
  · rw [if_pos h]; exact Or.inr ⟨h, rfl⟩
  · rw [if_neg h]; exact Or.inl rfl

/-- What the completion case can do to the task state: role state, magic, length,
flags and peers stay; the task stays running only if it ran; and a task still running
either ignored a completion for the broadcast address or issued exactly one send, to
the address of the completion, which is now the target. -/
theorem on_send_cb_cases (st : task_state) (env : platform) (mac : List Nat) (status : Nat) :
    (on_send_cb st env mac status).1.send_param.state = st.send_param.state ∧
    (on_send_cb st env mac status).1.send_param.magic = st.send_param.magic ∧
    (on_send_cb st env mac status).1.send_param.len = st.send_param.len ∧
    (on_send_cb st env mac status).1.send_param.unicast = st.send_param.unicast ∧
    (on_send_cb st env mac status).1.send_param.broadcast = st.send_param.broadcast ∧
    (on_send_cb st env mac status).1.peers = st.peers ∧
    ((on_send_cb st env mac status).1.status = task_status.running →
      st.status = task_status.running) ∧
    ((on_send_cb st env mac status).1.status = task_status.running →
      ((on_send_cb st env mac status).1.send_param.dest_mac = st.send_param.dest_mac ∧
        (on_send_cb st env mac status).2 = [] ∧ mac = s_example_broadcast_mac ∧
        st.send_param.broadcast = false) ∨
      ((on_send_cb st env mac status).1.send_param.dest_mac = mac ∧
        (∃ pkt, (on_send_cb st env mac status).2 = [{ dest := mac, data := pkt }]) ∧
        (mac = s_example_broadcast_mac → st.send_param.broadcast = true) ∧
        env.send_ok = true)) := by
  by_cases hmac : mac = s_example_broadcast_mac
  · subst hmac
    rw [on_send_cb_broadcast]
    by_cases hb : st.send_param.broadcast = false
    · rw [if_pos hb]
      exact ⟨rfl, rfl, rfl, rfl, rfl, rfl, fun h => h, fun _ => Or.inl ⟨rfl, rfl, rfl, hb⟩⟩
    · rw [if_neg hb]
      have hb1 : st.send_param.broadcast = true := by simpa using hb
      obtain ⟨h1, h2, _, h4, h5, h6, h7, h8, h9⟩ :=
        prepare_and_send_cases { st with is_broadcast := true } env s_example_broadcast_mac false
      refine ⟨h1, h2, h4, ?_, ?_, h6, fun h => (h8 h).1, ?_⟩
      · rcases h7 with ⟨a, _, _⟩ | ⟨a, _⟩
        · exact a
        · exact Bool.noConfusion a
      · rcases h7 with ⟨_, a, _⟩ | ⟨a, _⟩
        · exact a
        · exact Bool.noConfusion a
      · intro hr
        exact Or.inr ⟨h5, (h8 hr).2.2, fun _ => hb1, (h8 hr).2.1⟩
  · rw [on_send_cb_unicast st env mac status hmac]
    by_cases hc : (st.send_param.count + 65535) % 65536 = 0
    · rw [if_pos hc]
      refine ⟨rfl, rfl, rfl, rfl, rfl, rfl, fun h => ?_, fun h => ?_⟩ <;> simp at h
    · rw [if_neg hc]
      generalize hst0 :
        ({ st with is_broadcast := false,
                   send_param := { st.send_param with
                                   count := (st.send_param.count + 65535) % 65536 } } :
          task_state) = st0
      obtain ⟨h1, h2, _, h4, h5, h6, h7, h8, h9⟩ := prepare_and_send_cases st0 env mac false
      have e1 : st0.send_param.state = st.send_param.state := by rw [← hst0]
      have e2 : st0.send_param.magic = st.send_param.magic := by rw [← hst0]
      have e3 : st0.send_param.len = st.send_param.len := by rw [← hst0]
      have e4 : st0.send_param.unicast = st.send_param.unicast := by rw [← hst0]
      have e5 : st0.send_param.broadcast = st.send_param.broadcast := by rw [← hst0]
      have e6 : st0.peers = st.peers := by rw [← hst0]
      have e7 : st0.status = st.status := by rw [← hst0]
      refine ⟨h1.trans e1, h2.trans e2, h4.trans e3, ?_, ?_, h6.trans e6,
        fun h => e7 ▸ (h8 h).1, ?_⟩
      · rcases h7 with ⟨a, _, _⟩ | ⟨a, _⟩
        · exact a.trans e4
        · exact Bool.noConfusion a
      · rcases h7 with ⟨_, a, _⟩ | ⟨a, _⟩
        · exact a.trans e5
        · exact Bool.noConfusion a
      · intro hr
        exact Or.inr ⟨h5, (h8 hr).2.2, fun h => absurd h hmac, (h8 hr).2.1⟩

/-- What the reception case can do to the task state: magic, count and length stay,
the role state stays or goes from 0 to 1, the task stays running only if it ran, and
either nothing is sent and the target and the `unicast` flag stay (the `broadcast` flag
stays or is cleared), or the session, whose `unicast` flag was clear, elects: one send
to the sender, which becomes the target, with `unicast` set and `broadcast` clear, or
a task that no longer runs. -/
theorem on_recv_cb_cases (st : task_state) (env : platform) (mac data : List Nat) :
    (on_recv_cb st env mac data).1.send_param.magic = st.send_param.magic ∧
    (on_recv_cb st env mac data).1.send_param.count = st.send_param.count ∧
    (on_recv_cb st env mac data).1.send_param.len = st.send_param.len ∧
    ((on_recv_cb st env mac data).1.send_param.state = st.send_param.state ∨
      (st.send_param.state = 0 ∧ (on_recv_cb st env mac data).1.send_param.state = 1)) ∧
    ((on_recv_cb st env mac data).1.status = task_status.running →
      st.status = task_status.running) ∧
    (((on_recv_cb st env mac data).1.send_param.unicast = st.send_param.unicast ∧
      ((on_recv_cb st env mac data).1.send_param.broadcast = st.send_param.broadcast ∨
        (on_recv_cb st env mac data).1.send_param.broadcast = false) ∧
      (on_recv_cb st env mac data).1.send_param.dest_mac = st.send_param.dest_mac ∧
      (on_recv_cb st env mac data).2 = []) ∨
     (st.send_param.unicast = false ∧
      (on_recv_cb st env mac data).1.send_param.unicast = true ∧
      (on_recv_cb st env mac data).1.send_param.broadcast = false ∧
      (on_recv_cb st env mac data).1.send_param.dest_mac = mac ∧
      env.send_ok = true ∧
      ∃ pkt, (on_recv_cb st env mac data).2 = [{ dest := mac, data := pkt }]) ∨
     ((on_recv_cb st env mac data).1.status ≠ task_status.running ∧
      (on_recv_cb st env mac data).1.send_param.unicast = st.send_param.unicast ∧
      (on_recv_cb st env mac data).1.send_param.broadcast = st.send_param.broadcast)) := by
  by_cases hb : (pong_data_parse data (data.length % 65536) st.recv_state st.recv_seq
      st.recv_magic).ret = (pong_DATA_BROADCAST : Nat)
  · by_cases hpeer : st.peers.contains mac = true ∨
        (env.malloc_ok = true ∧ env.add_peer_ok = true)
    · rw [on_recv_cb_broadcast st env mac data hb hpeer]
      generalize pong_data_parse data (data.length % 65536) st.recv_state st.recv_seq
        st.recv_magic = r
      have e1 : (after_broadcast st r mac).send_param.magic = st.send_param.magic := by
        simp [after_broadcast]
      have e2 : (after_broadcast st r mac).send_param.count = st.send_param.count := by
        simp [after_broadcast]
      have e3 : (after_broadcast st r mac).send_param.len = st.send_param.len := by
        simp [after_broadcast]
      have e4 : (after_broadcast st r mac).send_param.unicast = st.send_param.unicast := by
        simp [after_broadcast]
      have e5 : (after_broadcast st r mac).send_param.broadcast
          = st.send_param.broadcast := by
        simp [after_broadcast]
      have e6 : (after_broadcast st r mac).send_param.dest_mac = st.send_param.dest_mac := by
        simp [after_broadcast]
      have e7 : (after_broadcast st r mac).status = st.status := rfl
      have e8 : (after_broadcast st r mac).send_param.state = st.send_param.state ∨
          (st.send_param.state = 0 ∧ (after_broadcast st r mac).send_param.state = 1) :=
        mark_received_state st.send_param
      split
      · rename_i hc
        obtain ⟨h1, h2, h3, h4, h5, _, h7, h8, _⟩ :=
          prepare_and_send_cases (after_broadcast st r mac) env mac true
        refine ⟨h2.trans e1, h3.trans e2, h4.trans e3, ?_, fun h => e7 ▸ (h8 h).1, ?_⟩
        · rw [h1]; exact e8
        · rcases h7 with ⟨a, b, c⟩ | ⟨_, a, b, c, _, d⟩
          · exact Or.inr (Or.inr ⟨c rfl, a.trans e4, b.trans e5⟩)
          · exact Or.inr (Or.inl ⟨hc.2.1, b, c, h5, a, d⟩)
      · exact ⟨e1, e2, e3, e8, fun h => h, Or.inl ⟨e4, Or.inl e5, e6, rfl⟩⟩
    · obtain ⟨h1, _, h3, h4⟩ := on_recv_cb_broadcast_no_peer st env mac data hb hpeer
      rw [h1]
      exact ⟨rfl, rfl, rfl, Or.inl rfl, fun h => absurd h h3, Or.inl ⟨rfl, Or.inl rfl, rfl, h4⟩⟩
  · by_cases hu : (pong_data_parse data (data.length % 65536) st.recv_state st.recv_seq
        st.recv_magic).ret = (pong_DATA_UNICAST : Nat)
    · rw [on_recv_cb_unicast st env mac data hu]
      exact ⟨rfl, rfl, rfl, Or.inl rfl, fun h => h, Or.inl ⟨rfl, Or.inr rfl, rfl, rfl⟩⟩
    · rw [on_recv_cb_other st env mac data hb hu]
      exact ⟨rfl, rfl, rfl, Or.inl rfl, fun h => h, Or.inl ⟨rfl, Or.inl rfl, rfl, rfl⟩⟩

/-- One event that the transport can deliver keeps the relation between target and
mode. -/
theorem target_invariant_step (st : task_state) (issued : List (List Nat)) (env : platform)
    (evt : pong_event_t) (hinv : target_invariant st issued)
    (hev : event_consistent issued evt = true) :
    target_invariant (pong_task_step st env evt).1
      (issued ++ (pong_task_step st env evt).2.map (fun s => s.dest)) := by
  by_cases hrun : st.status = task_status.running
  · obtain ⟨hd, hbu, hiss⟩ := hinv hrun
    rw [pong_task_step_running st env evt hrun]
    cases evt with
    | other id =>
      simp only [List.map_nil, List.append_nil]
      exact hinv
    | send_cb mac status =>
      simp only []
      obtain ⟨_, _, _, hu, hb, _, _, hcase⟩ := on_send_cb_cases st env mac status
      intro hr
      have hmem : mac ∈ issued := by
        simpa [event_consistent] using hev
      rcases hcase hr with ⟨h1, h2, _, _⟩ | ⟨h1, ⟨pkt, h2⟩, h3, _⟩
      · rw [h1, h2, hu, hb]
        simp only [List.map_nil, List.append_nil]
        exact ⟨hd, hbu, hiss⟩
      · rw [h1, h2, hu, hb]
        simp only [List.map_cons, List.map_nil]
        rcases hiss mac hmem with hm | ⟨hm, hun⟩
        · have hu0 : st.send_param.unicast = false := hbu (h3 hm)
          refine ⟨?_, hbu, ?_⟩
          · rw [hm, hu0]; simp
          · intro d hdm
            rcases List.mem_append.mp hdm with h | h
            · rcases hiss d h with h' | ⟨_, h'⟩
              · exact Or.inl h'
              · rw [hu0] at h'; exact Bool.noConfusion h'
            · simp at h; exact Or.inl (h.trans hm)
        · refine ⟨?_, hbu, ?_⟩
          · rw [hm]; exact hd
          · intro d hdm
            rcases List.mem_append.mp hdm with h | h
            · rcases hiss d h with h' | ⟨h', h''⟩
              · exact Or.inl h'
              · exact Or.inr ⟨h'.trans hm.symm, h''⟩
            · simp at h; exact Or.inr ⟨h, hun⟩
    | recv_cb mac data =>
      simp only []
      obtain ⟨_, _, _, _, _, hcase⟩ := on_recv_cb_cases st env mac data
      have hmac : mac ≠ s_example_broadcast_mac := by
        simpa [event_consistent, IS_BROADCAST_ADDR] using hev
      intro hr
      rcases hcase with ⟨h1, h2, h3, h4⟩ | ⟨h1, h2, h3, h4, _, pkt, h5⟩ | ⟨h1, _, _⟩
      · rw [h1, h3, h4]
        simp only [List.map_nil, List.append_nil]
        refine ⟨hd, ?_, hiss⟩
        intro hb'
        rcases h2 with h | h
        · exact hbu (h ▸ hb')
        · rw [h] at hb'; exact Bool.noConfusion hb'
      · rw [h2, h3, h4, h5]
        simp only [List.map_cons, List.map_nil]
        refine ⟨⟨fun _ => by trivial, fun _ => hmac⟩, fun h => Bool.noConfusion h, ?_⟩
        intro d hdm
        rcases List.mem_append.mp hdm with h | h
        · rcases hiss d h with h' | ⟨_, h'⟩
          · exact Or.inl h'
          · rw [h1] at h'; exact Bool.noConfusion h'
        · simp at h; exact Or.inr ⟨h, by trivial⟩
      · exact absurd hr h1
  · rw [pong_task_step_not_running st env evt hrun]
    intro hr
    exact absurd hr hrun

/-- A sequence of events that the transport can deliver keeps the relation between
target and mode. -/
theorem target_invariant_run (evs : List (platform × pong_event_t)) :
    ∀ (st : task_state) (issued : List (List Nat)), target_invariant st issued →
      transport_consistent st issued evs = true →
      ∃ issued1, target_invariant (pong_task_run st evs).1 issued1 := by
  induction evs with
  | nil => intro st issued h _; exact ⟨issued, h⟩
  | cons e rest ih =>
    intro st issued h hc
    obtain ⟨env, evt⟩ := e
    simp only [transport_consistent, Bool.and_eq_true] at hc
    obtain ⟨hc1, hc2⟩ := hc
    exact ih _ _ (target_invariant_step st issued env evt h hc1) hc2

/-- The session `pong_init` sets up broadcasts: flags, target and role state. -/
theorem pong_init_fields (cfg : pong_config) (random : Nat) (rnd : List Nat) :
    (pong_init cfg random rnd).send_param.unicast = false ∧
    (pong_init cfg random rnd).send_param.broadcast = true ∧
    (pong_init cfg random rnd).send_param.dest_mac = s_example_broadcast_mac ∧
    (pong_init cfg random rnd).send_param.state = 0 := by
  unfold pong_init
  dsimp only
  split
  · exact ⟨rfl, rfl, rfl, rfl⟩
  · rename_i sp1 sq hp
    obtain ⟨h1, _⟩ := pong_data_prepare_fields _ _ _ _ _ hp
    dsimp only
    rw [h1]
    exact ⟨rfl, rfl, rfl, rfl⟩

/-- The first send leaves the parameter block alone and goes to the target. -/
theorem pong_task_start_cases (st : task_state) (env : platform) :
    (pong_task_start st env).1.send_param = st.send_param ∧
    ((pong_task_start st env).1.status = task_status.running →
      st.status = task_status.running) ∧
    ∀ d ∈ (pong_task_start st env).2.map (fun s => s.dest), d = st.send_param.dest_mac := by
  unfold pong_task_start
  cases hs : st.status with
  | running =>
    dsimp only
    by_cases hok : env.send_ok = false
    · rw [if_pos hok]
      refine ⟨rfl, fun _ => rfl, ?_⟩
      intro d hd; simpa using hd
    · rw [if_neg hok]
      refine ⟨rfl, fun _ => rfl, ?_⟩
      intro d hd; simpa using hd
  | deleted =>
    dsimp only
    refine ⟨rfl, fun h => ?_, ?_⟩
    · rw [hs] at h; exact h
    · intro d hd; simp at hd
  | aborted =>
    dsimp only
    refine ⟨rfl, fun h => ?_, ?_⟩
    · rw [hs] at h; exact h
    · intro d hd; simp at hd

/-- What one event can do to the role state and the flags: the role state stays or
goes from 0 to 1; `unicast` stays while `broadcast` stays or is cleared, or `unicast`
is set and `broadcast` cleared. -/
theorem pong_task_step_cases (st : task_state) (env : platform) (evt : pong_event_t) :
    ((pong_task_step st env evt).1.send_param.state = st.send_param.state ∨
      (st.send_param.state = 0 ∧ (pong_task_step st env evt).1.send_param.state = 1)) ∧
    (((pong_task_step st env evt).1.send_param.unicast = st.send_param.unicast ∧
      ((pong_task_step st env evt).1.send_param.broadcast = st.send_param.broadcast ∨
        (pong_task_step st env evt).1.send_param.broadcast = false)) ∨
     (st.send_param.unicast = false ∧
      (pong_task_step st env evt).1.send_param.unicast = true ∧
      (pong_task_step st env evt).1.send_param.broadcast = false)) ∧
    ((pong_task_step st env evt).1.status = task_status.running →
      st.status = task_status.running) := by
  by_cases hrun : st.status = task_status.running
  · rw [pong_task_step_running st env evt hrun]
    cases evt with
    | other id => exact ⟨Or.inl rfl, Or.inl ⟨rfl, Or.inl rfl⟩, fun h => h⟩
    | send_cb mac status =>
      obtain ⟨h1, _, _, hu, hb, _, h7, _⟩ := on_send_cb_cases st env mac status
      exact ⟨Or.inl h1, Or.inl ⟨hu, Or.inl hb⟩, h7⟩
    | recv_cb mac data =>
      obtain ⟨_, _, _, h4, h5, hcase⟩ := on_recv_cb_cases st env mac data
      refine ⟨h4, ?_, h5⟩
      rcases hcase with ⟨a, b, _, _⟩ | ⟨a, b, c, _⟩ | ⟨_, a, b⟩
      · exact Or.inl ⟨a, b⟩
      · exact Or.inr ⟨a, b, c⟩
      · exact Or.inl ⟨a, Or.inl b⟩
  · rw [pong_task_step_not_running st env evt hrun]
    exact ⟨Or.inl rfl, Or.inl ⟨rfl, Or.inl rfl⟩, fun h => h⟩

/-- Over any sequence of events a raised role state stays raised, a cleared
`broadcast` flag stays cleared, and the two flags are never both set if they were
not to begin with. -/
theorem pong_task_run_cases (evs : List (platform × pong_event_t)) :
    ∀ st : task_state,
      (st.send_param.state = 1 → (pong_task_run st evs).1.send_param.state = 1) ∧
      (st.send_param.broadcast = false →
        (pong_task_run st evs).1.send_param.broadcast = false) ∧
      (¬ (st.send_param.broadcast = true ∧ st.send_param.unicast = true) →
        ¬ ((pong_task_run st evs).1.send_param.broadcast = true ∧
          (pong_task_run st evs).1.send_param.unicast = true)) := by
  induction evs with
  | nil => intro st; exact ⟨fun h => h, fun h => h, fun h => h⟩
  | cons e rest ih =>
    intro st
    obtain ⟨env, evt⟩ := e
    obtain ⟨hs, hf, _⟩ := pong_task_step_cases st env evt
    obtain ⟨i1, i2, i3⟩ := ih (pong_task_step st env evt).1
    refine ⟨fun h => i1 ?_, fun h => i2 ?_, fun h => i3 ?_⟩
    · rcases hs with a | ⟨a, _⟩
      · rw [a]; exact h
      · rw [a] at h; exact absurd h (by decide)
    · rcases hf with ⟨_, a | a⟩ | ⟨_, _, a⟩
      · rw [a]; exact h
      · exact a
      · exact a
    · rintro ⟨hb, hu⟩
      rcases hf with ⟨a, b | b⟩ | ⟨_, _, b⟩
      · exact h ⟨b ▸ hb, a ▸ hu⟩
      · rw [b] at hb; exact Bool.noConfusion hb
      · rw [b] at hb; exact Bool.noConfusion hb

/-- A send site whose send fails: nothing sent and the task aborted (the assertion
failed), or one send and the task deleted. -/
theorem prepare_and_send_fails (st : task_state) (env : platform) (mac : List Nat)
    (elect : Bool) (hfail : env.send_ok = false) :
    (prepare_and_send st env mac elect).2 = [] ∨
    ((prepare_and_send st env mac elect).1.status = task_status.deleted ∧
      (prepare_and_send st env mac elect).2.length = 1) := by
  unfold prepare_and_send
  split
  · exact Or.inl rfl
  · dsimp only
    rw [if_pos hfail]
    exact Or.inr ⟨rfl, rfl⟩

/-- An event that issues a send although the send fails ends the task after that one
send. -/
theorem pong_task_step_send_fails (st : task_state) (env : platform) (evt : pong_event_t)
    (hfail : env.send_ok = false) (hout : (pong_task_step st env evt).2 ≠ []) :
    (pong_task_step st env evt).1.status = task_status.deleted ∧
    (pong_task_step st env evt).2.length = 1 := by
  by_cases hrun : st.status = task_status.running
  · rw [pong_task_step_running st env evt hrun] at hout ⊢
    cases evt with
    | other id => exact absurd rfl hout
    | send_cb mac status =>
      dsimp only at hout ⊢
      by_cases hmac : mac = s_example_broadcast_mac
      · subst hmac
        rw [on_send_cb_broadcast] at hout ⊢
        split at hout
        · exact absurd rfl hout
        · rename_i hb
          rw [if_neg hb]
          rcases prepare_and_send_fails { st with is_broadcast := true } env
            s_example_broadcast_mac false hfail with h | h
          · exact absurd h hout
          · exact h
      · rw [on_send_cb_unicast st env mac status hmac] at hout ⊢
        split at hout
        · exact absurd rfl hout
        · rename_i hc
          rw [if_neg hc]
          rcases prepare_and_send_fails _ env mac false hfail with h | h
          · exact absurd h hout
          · exact h
    | recv_cb mac data =>
      dsimp only at hout ⊢
      by_cases hb : (pong_data_parse data (data.length % 65536) st.recv_state st.recv_seq
          st.recv_magic).ret = (pong_DATA_BROADCAST : Nat)
      · by_cases hpeer : st.peers.contains mac = true ∨
            (env.malloc_ok = true ∧ env.add_peer_ok = true)
        · rw [on_recv_cb_broadcast st env mac data hb hpeer] at hout ⊢
          split at hout
          · rename_i hc
            rw [if_pos hc]
            rcases prepare_and_send_fails _ env mac true hfail with h | h
            · exact absurd h hout
            · exact h
          · exact absurd rfl hout
        · exact absurd (on_recv_cb_broadcast_no_peer st env mac data hb hpeer).2.2.2 hout
      · by_cases hu : (pong_data_parse data (data.length % 65536) st.recv_state st.recv_seq
            st.recv_magic).ret = (pong_DATA_UNICAST : Nat)
        · rw [on_recv_cb_unicast st env mac data hu] at hout
          exact absurd rfl hout
        · rw [on_recv_cb_other st env mac data hb hu] at hout
          exact absurd rfl hout
  · rw [pong_task_step_not_running st env evt hrun] at hout
    exact absurd rfl hout

/-- A task that no longer runs keeps its state and sends nothing, whatever events
follow. -/
theorem pong_task_run_not_running (evs : List (platform × pong_event_t)) :
    ∀ s : task_state, s.status ≠ task_status.running →
      (pong_task_run s evs).1 = s ∧ ∀ out ∈ (pong_task_run s evs).2, out = [] := by
  induction evs with
  | nil => intro s _; exact ⟨rfl, fun out h => by simp [pong_task_run] at h⟩
  | cons e rest ih =>
    intro s hs
    obtain ⟨env, evt⟩ := e
    simp only [pong_task_run, pong_task_step_not_running s env evt hs]
    obtain ⟨h1, h2⟩ := ih s hs
    refine ⟨h1, ?_⟩
    intro out hout
    rcases List.mem_cons.mp hout with h | h
    · exact h
    · exact h2 out h

theorem pong_task_run_deleted (evs : List (platform × pong_event_t)) (s : task_state)
    (hs : s.status = task_status.deleted) :
    (pong_task_run s evs).1 = s ∧ ∀ out ∈ (pong_task_run s evs).2, out = [] :=
  pong_task_run_not_running evs s (by rw [hs]; simp)

theorem kind_of_cases (mac : List Nat) :
    kind_of mac = pong_DATA_BROADCAST ∨ kind_of mac = pong_DATA_UNICAST := by
  unfold kind_of
  split
  · exact Or.inl rfl
  · exact Or.inr rfl

/-- The counter read after an increment, for two packet kinds. -/
theorem seq_counters_get_incr (sq : seq_counters) (a b : List Nat) :
    (sq.incr (kind_of a)).get (kind_of b) =
      if kind_of a = kind_of b then (sq.get (kind_of b) + 1) % 65536
      else sq.get (kind_of b) := by
  rcases kind_of_cases a with ha | ha <;> rcases kind_of_cases b with hb | hb <;>
    rw [ha, hb] <;>
    simp [seq_counters.incr, seq_counters.get, pong_DATA_BROADCAST, pong_DATA_UNICAST]

theorem rd8_packet_kind (ty st sv m : Nat) (payload : List Nat) :
    rd8 (packet_bytes ty st sv m payload) 0 = ty % 256 := by
  simp [packet_bytes, header_bytes, rd8]

theorem rd16_packet_seq (ty st sv m : Nat) (payload : List Nat) :
    rd16 (packet_bytes ty st sv m payload) 2 = sv % 65536 := by
  simp [packet_bytes, header_bytes, rd16, rd8]
  omega

/-- The sequence number of each packet in a sequence of calls: the counter value at
the start plus the number of earlier packets of the same kind, modulo 2^16. -/
theorem prepare_calls_seq (calls : List (List Nat × List Nat)) :
    ∀ (sp : pong_send_param_t) (sq : seq_counters) (j : Nat) (dest rnd : List Nat),
      PONG_DATA_SIZE ≤ sp.len → sp.len ≤ sp.buffer.length →
      calls[j]? = some (dest, rnd) →
      ∃ pkt, (prepare_calls calls sp sq)[j]? = some pkt ∧
        rd8 pkt 0 = kind_of dest ∧
        rd16 pkt 2 = (sq.get (kind_of dest) +
          (calls.take j).countP (fun c => kind_of c.1 = kind_of dest)) % 65536 := by
  induction calls with
  | nil => intro sp sq j dest rnd _ _ h; simp at h
  | cons c rest ih =>
    intro sp sq j dest rnd hlen hbuf hj
    obtain ⟨d0, r0⟩ := c
    have hp := pong_data_prepare_eq { sp with dest_mac := d0 } sq r0 hlen hbuf
    dsimp only at hp
    have hpl : (packet_bytes (kind_of d0) sp.state (sq.get (kind_of d0)) sp.magic
        (esp_fill_random r0 (sp.len - PONG_DATA_SIZE))).length = sp.len := by
      rw [packet_bytes_length, esp_fill_random_length]; omega
    have hsome : ∃ sp1, pong_data_prepare { sp with dest_mac := d0 } sq r0
        = some (sp1, sq.incr (kind_of d0)) ∧ sp1.len = sp.len ∧
        sp1.buffer = packet_bytes (kind_of d0) sp.state (sq.get (kind_of d0)) sp.magic
          (esp_fill_random r0 (sp.len - PONG_DATA_SIZE)) ++ sp.buffer.drop sp.len :=
      ⟨_, hp, rfl, rfl⟩
    obtain ⟨sp1, hp1, hl1, hb1⟩ := hsome
    simp only [prepare_calls, hp1]
    cases j with
    | zero =>
      simp only [List.getElem?_cons_zero, Option.some.injEq, Prod.mk.injEq] at hj
      obtain ⟨hd, _⟩ := hj
      subst hd
      refine ⟨_, List.getElem?_cons_zero, ?_, ?_⟩
      · rw [hl1, hb1, List.take_left' hpl, rd8_packet_kind, Nat.mod_eq_of_lt (kind_of_lt _)]
      · rw [hl1, hb1, List.take_left' hpl, rd16_packet_seq]
        simp
    | succ k =>
      simp only [List.getElem?_cons_succ] at hj
      have hbuf1 : sp1.len ≤ sp1.buffer.length := by
        rw [hl1, hb1, List.length_append, hpl]; omega
      obtain ⟨pkt, h1, h2, h3⟩ := ih sp1 (sq.incr (kind_of d0)) k dest rnd
        (by rw [hl1]; exact hlen) hbuf1 hj
      refine ⟨pkt, by rw [List.getElem?_cons_succ]; exact h1, h2, ?_⟩
      rw [h3, seq_counters_get_incr, List.take_succ_cons, List.countP_cons]
      by_cases hk : kind_of d0 = kind_of dest
      · simp only [hk, if_true, decide_True]
        omega
      · simp only [hk, if_false, decide_False]
        simp

theorem rd16_packet_seq_append (ty st sv m : Nat) (payload rest : List Nat) :
    rd16 (packet_bytes ty st sv m payload ++ rest) 2 = sv % 65536 := by
  simp [packet_bytes, header_bytes, rd16, rd8]
  omega

theorem seq_counters_get_kind_of (sq : seq_counters) (mac : List Nat) :
    sq.get (kind_of mac) = if mac = s_example_broadcast_mac then sq.bcast else sq.ucast := by
  unfold kind_of IS_BROADCAST_ADDR seq_counters.get
  by_cases h : mac = s_example_broadcast_mac <;>
    simp [h, pong_DATA_BROADCAST, pong_DATA_UNICAST]

/-- A send site when the assertion of `pong_data_prepare` holds and the transport
refuses the packet: the one send is issued and the task is deleted, the flags
untouched. -/
theorem prepare_and_send_fail (st : task_state) (env : platform) (mac : List Nat)
    (elect : Bool) (hlen : PONG_DATA_SIZE ≤ st.send_param.len)
    (hbuf : st.send_param.len ≤ st.send_param.buffer.length) (hfail : env.send_ok = false) :
    (prepare_and_send st env mac elect).1.status = task_status.deleted ∧
    (prepare_and_send st env mac elect).1.send_param.unicast = st.send_param.unicast ∧
    (prepare_and_send st env mac elect).1.send_param.broadcast = st.send_param.broadcast ∧
    (prepare_and_send st env mac elect).2 = [{ dest := mac, data := next_packet st env mac }] := by
  unfold prepare_and_send
  have h := pong_data_prepare_eq { st.send_param with dest_mac := mac } st.s_pong_seq env.rnd
    hlen hbuf
  simp only [] at h
  rw [h]
  have ht : List.take st.send_param.len
      (next_packet st env mac ++ st.send_param.buffer.drop st.send_param.len)
      = next_packet st env mac := List.take_left' (next_packet_length st env mac hlen)
  dsimp only
  rw [if_pos hfail]
  refine ⟨rfl, rfl, rfl, ?_⟩
  dsimp only
  exact congrArg (fun d => [({ dest := mac, data := d } : sent)]) ht

/-! ## Properties of the specification -/

/-- C1: for every send parameter block with `len` at least the header size (and a buffer
that holds `len` bytes), every destination, every counter state and every filler,
`pong_data_prepare` succeeds and `pong_data_parse` on the buffer it wrote, with
`data_len = len`, returns the kind chosen from the destination (broadcast iff the
destination is the broadcast address) and delivers the role state, the sequence number
and the session magic that were written; the magic arrives in an `int` that holds the
same 32 bits. -/
theorem C1_round_trip (sp : pong_send_param_t) (sq : seq_counters) (rnd : List Nat)
    (state0 seq0 : Nat) (magic0 : Int)
    (hlen : PONG_DATA_SIZE ≤ sp.len) (hbuf : sp.len ≤ sp.buffer.length) :
    ∃ sp1 sq1, pong_data_prepare sp sq rnd = some (sp1, sq1) ∧
      (pong_data_parse sp1.buffer sp.len state0 seq0 magic0).ret =
        (if sp.dest_mac = s_example_broadcast_mac then (pong_DATA_BROADCAST : Int)
         else (pong_DATA_UNICAST : Int)) ∧
      (pong_data_parse sp1.buffer sp.len state0 seq0 magic0).state = sp.state % 256 ∧
      (pong_data_parse sp1.buffer sp.len state0 seq0 magic0).seq =
        (if sp.dest_mac = s_example_broadcast_mac then sq.bcast else sq.ucast) % 65536 ∧
      (pong_data_parse sp1.buffer sp.len state0 seq0 magic0).magic = toInt32 sp.magic ∧
      toUInt32 (pong_data_parse sp1.buffer sp.len state0 seq0 magic0).magic
        = sp.magic % 4294967296 := by
  refine ⟨_, _, pong_data_prepare_eq sp sq rnd hlen hbuf, ?_⟩
  have hl : PONG_DATA_SIZE + (esp_fill_random rnd (sp.len - PONG_DATA_SIZE)).length = sp.len := by
    rw [esp_fill_random_length]; omega
  have hp := pong_data_parse_packet (kind_of sp.dest_mac) sp.state (sq.get (kind_of sp.dest_mac))
    sp.magic (esp_fill_random rnd (sp.len - PONG_DATA_SIZE)) (sp.buffer.drop sp.len)
    state0 seq0 magic0
  rw [hl] at hp
  simp only []
  rw [hp]
  simp only [toUInt32_toInt32, Nat.mod_eq_of_lt (kind_of_lt _)]
  refine ⟨?_, trivial, ?_, trivial, trivial⟩
  · unfold kind_of IS_BROADCAST_ADDR
    by_cases h : sp.dest_mac = s_example_broadcast_mac <;> simp [h]
  · unfold kind_of IS_BROADCAST_ADDR seq_counters.get
    by_cases h : sp.dest_mac = s_example_broadcast_mac <;>
      simp [h, pong_DATA_BROADCAST, pong_DATA_UNICAST]

/-- C1 at a concrete parameter block: twelve bytes for the broadcast address. -/
theorem C1_round_trip_witness :
    PONG_DATA_SIZE ≤ example_param.len ∧ example_param.len ≤ example_param.buffer.length ∧
    ∃ sp1 sq1, pong_data_prepare example_param ⟨7, 3⟩ [1, 2, 3] = some (sp1, sq1) ∧
      (pong_data_parse sp1.buffer example_param.len 0 0 0).ret =
        (if example_param.dest_mac = s_example_broadcast_mac then (pong_DATA_BROADCAST : Int)
         else (pong_DATA_UNICAST : Int)) ∧
      (pong_data_parse sp1.buffer example_param.len 0 0 0).state = example_param.state % 256 ∧
      (pong_data_parse sp1.buffer example_param.len 0 0 0).seq =
        (if example_param.dest_mac = s_example_broadcast_mac then
          (⟨7, 3⟩ : seq_counters).bcast else (⟨7, 3⟩ : seq_counters).ucast) % 65536 ∧
      (pong_data_parse sp1.buffer example_param.len 0 0 0).magic = toInt32 example_param.magic ∧
      toUInt32 (pong_data_parse sp1.buffer example_param.len 0 0 0).magic
        = example_param.magic % 4294967296 :=
  ⟨by decide, by decide,
    C1_round_trip example_param ⟨7, 3⟩ [1, 2, 3] 0 0 0 (by decide) (by decide)⟩

/-- C2: for every packet that `pong_data_prepare` produces (the first `len` bytes of the
buffer) and every bit position `i` in it, header, checksum field and payload alike,
`pong_data_parse` returns -1 on the packet with that bit flipped, and it does so
because the checksum recomputed with seed `0xFFFF` over the packet with a zero
checksum field differs from the embedded checksum. -/
theorem C2_single_bit_flip_rejected (sp : pong_send_param_t) (sq : seq_counters)
    (rnd : List Nat) (state0 seq0 : Nat) (magic0 : Int) (i : Nat)
    (hlen : PONG_DATA_SIZE ≤ sp.len) (hbuf : sp.len ≤ sp.buffer.length)
    (hi : i < 8 * sp.len) :
    ∃ sp1 sq1, pong_data_prepare sp sq rnd = some (sp1, sq1) ∧
      (pong_data_parse (flip_bit (sp1.buffer.take sp.len) i) sp.len state0 seq0 magic0).ret
        = -1 ∧
      crc16_le UINT16_MAX (wr16 (flip_bit (sp1.buffer.take sp.len) i) 4 0) sp.len
        ≠ rd16 (flip_bit (sp1.buffer.take sp.len) i) 4 := by
  refine ⟨_, _, pong_data_prepare_eq sp sq rnd hlen hbuf, ?_⟩
  have hl : PONG_DATA_SIZE + (esp_fill_random rnd (sp.len - PONG_DATA_SIZE)).length = sp.len := by
    rw [esp_fill_random_length]; omega
  have hf := flip_bit_rejected (kind_of sp.dest_mac) sp.state (sq.get (kind_of sp.dest_mac))
    sp.magic (esp_fill_random rnd (sp.len - PONG_DATA_SIZE)) i state0 seq0 magic0
    (by rw [hl]; exact hi)
  rw [hl] at hf
  have ht : List.take sp.len
      (packet_bytes (kind_of sp.dest_mac) sp.state (sq.get (kind_of sp.dest_mac)) sp.magic
        (esp_fill_random rnd (sp.len - PONG_DATA_SIZE)) ++ sp.buffer.drop sp.len)
      = packet_bytes (kind_of sp.dest_mac) sp.state (sq.get (kind_of sp.dest_mac)) sp.magic
        (esp_fill_random rnd (sp.len - PONG_DATA_SIZE)) :=
    List.take_left' (by rw [packet_bytes_length]; exact hl)
  simp only []
  rw [ht]
  exact ⟨hf, (pong_data_parse_ret _ _ _ _ _ hlen).mp hf⟩

/-- C2 at a concrete packet: bit 3 of the kind byte of a twelve-byte broadcast. -/
theorem C2_single_bit_flip_rejected_witness :
    PONG_DATA_SIZE ≤ example_param.len ∧ example_param.len ≤ example_param.buffer.length ∧
    3 < 8 * example_param.len ∧
    ∃ sp1 sq1, pong_data_prepare example_param ⟨7, 3⟩ [1, 2, 3] = some (sp1, sq1) ∧
      (pong_data_parse (flip_bit (sp1.buffer.take example_param.len) 3) example_param.len
        0 0 0).ret = -1 ∧
      crc16_le UINT16_MAX (wr16 (flip_bit (sp1.buffer.take example_param.len) 3) 4 0)
          example_param.len
        ≠ rd16 (flip_bit (sp1.buffer.take example_param.len) 3) 4 :=
  ⟨by decide, by decide, by decide,
    C2_single_bit_flip_rejected example_param ⟨7, 3⟩ [1, 2, 3] 0 0 0 3 (by decide) (by decide)
      (by decide)⟩

/-- C3: `pong_data_parse` returns -1 when `data_len` is below the header size; when it
is not, it returns -1 exactly when the checksum recomputed with seed `0xFFFF` over
`data_len` bytes with the checksum field zeroed differs from the embedded checksum;
and when the two agree it returns the kind byte and delivers the role state, the
sequence number and the session magic of the packet. -/
theorem C3_parse_fails_exactly (data : List Nat) (data_len state0 seq0 : Nat) (magic0 : Int) :
    (data_len < PONG_DATA_SIZE →
      (pong_data_parse data data_len state0 seq0 magic0).ret = -1) ∧
    (PONG_DATA_SIZE ≤ data_len →
      ((pong_data_parse data data_len state0 seq0 magic0).ret = -1 ↔
        crc16_le UINT16_MAX (wr16 data 4 0) data_len ≠ rd16 data 4)) ∧
    (PONG_DATA_SIZE ≤ data_len →
      crc16_le UINT16_MAX (wr16 data 4 0) data_len = rd16 data 4 →
      (pong_data_parse data data_len state0 seq0 magic0).ret = (rd8 data 0 : Nat) ∧
      (pong_data_parse data data_len state0 seq0 magic0).state = rd8 data 1 ∧
      (pong_data_parse data data_len state0 seq0 magic0).seq = rd16 data 2 ∧
      (pong_data_parse data data_len state0 seq0 magic0).magic = toInt32 (rd32 data 6)) := by
  refine ⟨?_, ?_, ?_⟩
  · intro h
    unfold pong_data_parse
    rw [if_pos h]
  · intro h
    exact pong_data_parse_ret data data_len state0 seq0 magic0 h
  · intro h hc
    unfold pong_data_parse
    rw [if_neg (by omega)]
    simp only [if_pos hc]
    refine ⟨?_, trivial, trivial, trivial⟩
    rw [rd8_wr16_ne _ _ _ _ (by omega) (by omega)]

set_option maxRecDepth 100000 in
/-- C3 at concrete inputs: a nine-byte buffer, a twelve-byte packet with a wrong
checksum and one with the right checksum. -/
theorem C3_parse_fails_exactly_witness :
    (pong_data_parse [0, 1, 7, 0, 9, 135, 0, 94, 208] 9 0 0 0).ret = -1 ∧
    (pong_data_parse [0, 1, 7, 0, 9, 136, 0, 94, 208, 178, 1, 2] 12 0 0 0).ret = -1 ∧
    (pong_data_parse [0, 1, 7, 0, 9, 135, 0, 94, 208, 178, 1, 2] 12 0 0 0).ret = 0 ∧
    (pong_data_parse [0, 1, 7, 0, 9, 135, 0, 94, 208, 178, 1, 2] 12 0 0 0).seq = 7 :=
  ⟨(C3_parse_fails_exactly [0, 1, 7, 0, 9, 135, 0, 94, 208] 9 0 0 0).1 (by decide),
   ((C3_parse_fails_exactly [0, 1, 7, 0, 9, 136, 0, 94, 208, 178, 1, 2] 12 0 0 0).2.1
      (by decide)).mpr (by decide),
   ((C3_parse_fails_exactly [0, 1, 7, 0, 9, 135, 0, 94, 208, 178, 1, 2] 12 0 0 0).2.2
      (by decide) (by decide)).1,
   ((C3_parse_fails_exactly [0, 1, 7, 0, 9, 135, 0, 94, 208, 178, 1, 2] 12 0 0 0).2.2
      (by decide) (by decide)).2.2.1⟩

/-- C5 (as amended): for every session state and every reception, the session sets its
`unicast` flag or issues a send only if the packet parses as a broadcast with remote
role state 1, the task runs, the local `unicast` flag is still clear, and the local
magic is at least the remote magic (compared as unsigned 32-bit values). The guard is
on the `unicast` flag, not on the `broadcast` flag. -/
theorem C5_election_only_under_tie_break (st : task_state) (env : platform)
    (mac data : List Nat)
    (h : (st.send_param.unicast = false ∧
        (pong_task_step st env (pong_event_t.recv_cb mac data)).1.send_param.unicast = true) ∨
      (pong_task_step st env (pong_event_t.recv_cb mac data)).2 ≠ []) :
    st.status = task_status.running ∧
    (pong_data_parse data (data.length % 65536) st.recv_state st.recv_seq
      st.recv_magic).ret = (pong_DATA_BROADCAST : Nat) ∧
    (pong_data_parse data (data.length % 65536) st.recv_state st.recv_seq
      st.recv_magic).state = 1 ∧
    st.send_param.unicast = false ∧
    toUInt32 (pong_data_parse data (data.length % 65536) st.recv_state st.recv_seq
      st.recv_magic).magic ≤ st.send_param.magic := by
  by_cases hr : st.status = task_status.running
  · rw [pong_task_step_running st env _ hr] at h
    exact ⟨hr, on_recv_cb_elects st env mac data h⟩
  · rw [pong_task_step_not_running st env _ hr] at h
    exfalso
    rcases h with ⟨h3, h4⟩ | h4
    · rw [h3] at h4; exact Bool.noConfusion h4
    · exact h4 rfl

set_option maxRecDepth 100000 in
/-- C5 at a concrete session: the election of `example_session` on `example_broadcast`. -/
theorem C5_election_only_under_tie_break_witness :
    toUInt32 (pong_data_parse example_broadcast (example_broadcast.length % 65536)
      example_session.recv_state example_session.recv_seq example_session.recv_magic).magic
      ≤ example_session.send_param.magic :=
  (C5_election_only_under_tie_break example_session (platform_ok [1, 2]) example_peer
    example_broadcast (Or.inr (by decide))).2.2.2.2

set_option maxRecDepth 100000 in
/-- C5 fails as stated: a session that stopped broadcasting because it received a
unicast (`broadcast` clear, `unicast` clear) still elects itself on a later broadcast
with role state 1 and a smaller magic: it sets `unicast` and sends to that peer. -/
theorem C5_counterexample :
    (pong_task_step example_session (platform_ok [1, 2])
      (pong_event_t.recv_cb example_peer example_unicast)).1.send_param.broadcast = false ∧
    (pong_task_step example_session (platform_ok [1, 2])
      (pong_event_t.recv_cb example_peer example_unicast)).1.send_param.unicast = false ∧
    (pong_task_step
      (pong_task_step example_session (platform_ok [1, 2])
        (pong_event_t.recv_cb example_peer example_unicast)).1
      (platform_ok [3, 4])
      (pong_event_t.recv_cb [6, 5, 4, 3, 2, 1] example_broadcast)).1.send_param.unicast
      = true ∧
    ((pong_task_step
      (pong_task_step example_session (platform_ok [1, 2])
        (pong_event_t.recv_cb example_peer example_unicast)).1
      (platform_ok [3, 4])
      (pong_event_t.recv_cb [6, 5, 4, 3, 2, 1] example_broadcast)).2.map
        (fun s => s.dest)) = [[6, 5, 4, 3, 2, 1]] := by
  decide

/-- Two running sessions A and B in Broadcasting mode with role state 1 each process
a broadcast of the other (a packet that parses as a broadcast carrying the other's
role state and magic). When the magic of B is smaller than the magic of A, B keeps
its flags (`unicast` clear, `broadcast` set) and sends nothing, whatever its platform
answers, and A, whose send succeeds and which knows B or can register it, ends in
Unicast mode: of two sessions with different magics exactly the one with the greater
magic becomes the sender. -/
theorem distinct_magics_one_sender (A B : task_state) (envA envB : platform)
    (macA macB pktA pktB : List Nat)
    (hrunA : A.status = task_status.running) (hrunB : B.status = task_status.running)
    (hbA : A.send_param.broadcast = true) (huA : A.send_param.unicast = false)
    (hbB : B.send_param.broadcast = true) (huB : B.send_param.unicast = false)
    (hsA : A.send_param.state = 1) (hsB : B.send_param.state = 1)
    (hmA : A.send_param.magic < 4294967296) (hmB : B.send_param.magic < 4294967296)
    (hretA : (pong_data_parse pktA (pktA.length % 65536) B.recv_state B.recv_seq
      B.recv_magic).ret = (pong_DATA_BROADCAST : Nat))
    (hstA : (pong_data_parse pktA (pktA.length % 65536) B.recv_state B.recv_seq
      B.recv_magic).state = A.send_param.state)
    (hmgA : (pong_data_parse pktA (pktA.length % 65536) B.recv_state B.recv_seq
      B.recv_magic).magic = toInt32 A.send_param.magic)
    (hretB : (pong_data_parse pktB (pktB.length % 65536) A.recv_state A.recv_seq
      A.recv_magic).ret = (pong_DATA_BROADCAST : Nat))
    (hstB : (pong_data_parse pktB (pktB.length % 65536) A.recv_state A.recv_seq
      A.recv_magic).state = B.send_param.state)
    (hmgB : (pong_data_parse pktB (pktB.length % 65536) A.recv_state A.recv_seq
      A.recv_magic).magic = toInt32 B.send_param.magic)
    (hlt : B.send_param.magic < A.send_param.magic)
    (hsend : envA.send_ok = true)
    (hpeer : A.peers.contains macB = true ∨
      (envA.malloc_ok = true ∧ envA.add_peer_ok = true))
    (hlen : PONG_DATA_SIZE ≤ A.send_param.len)
    (hbuf : A.send_param.len ≤ A.send_param.buffer.length) :
    (pong_task_step A envA (pong_event_t.recv_cb macB pktB)).1.send_param.unicast = true ∧
    (pong_task_step A envA (pong_event_t.recv_cb macB pktB)).1.send_param.broadcast = false ∧
    (pong_task_step B envB (pong_event_t.recv_cb macA pktA)).1.send_param.unicast = false ∧
    (pong_task_step B envB (pong_event_t.recv_cb macA pktA)).1.send_param.broadcast = true ∧
    (pong_task_step B envB (pong_event_t.recv_cb macA pktA)).2 = [] := by
  have hA : toUInt32 (pong_data_parse pktB (pktB.length % 65536) A.recv_state A.recv_seq
      A.recv_magic).magic ≤ A.send_param.magic := by
    rw [hmgB, toUInt32_toInt32, Nat.mod_eq_of_lt hmB]; omega
  have hB : ¬ toUInt32 (pong_data_parse pktA (pktA.length % 65536) B.recv_state B.recv_seq
      B.recv_magic).magic ≤ B.send_param.magic := by
    rw [hmgA, toUInt32_toInt32, Nat.mod_eq_of_lt hmA]; omega
  refine ⟨?_, ?_, ?_⟩
  · rw [pong_task_step_running A envA _ hrunA]
    simp only []
    rw [on_recv_cb_broadcast A envA macB pktB hretB hpeer,
      if_pos ⟨by rw [hstB, hsB], huA, hA⟩]
    rw [prepare_and_send_ok _ envA macB true (by simpa [after_broadcast] using hlen)
      (by simpa [after_broadcast] using hbuf) hsend]
    rfl
  · rw [pong_task_step_running A envA _ hrunA]
    simp only []
    rw [on_recv_cb_broadcast A envA macB pktB hretB hpeer,
      if_pos ⟨by rw [hstB, hsB], huA, hA⟩]
    rw [prepare_and_send_ok _ envA macB true (by simpa [after_broadcast] using hlen)
      (by simpa [after_broadcast] using hbuf) hsend]
    rfl
  · rw [pong_task_step_running B envB _ hrunB]
    simp only []
    by_cases hpeer : B.peers.contains macA = true ∨
        (envB.malloc_ok = true ∧ envB.add_peer_ok = true)
    · rw [on_recv_cb_broadcast B envB macA pktA hretA hpeer, if_neg (fun h => hB h.2.2)]
      simp [after_broadcast, huB, hbB]
    · obtain ⟨h1, _, _, h2⟩ := on_recv_cb_broadcast_no_peer B envB macA pktA hretA hpeer
      rw [h1, h2]
      exact ⟨huB, hbB, rfl⟩

set_option maxRecDepth 100000 in
/-- Two concrete sessions with magics 1000 and 999: only the first becomes the
sender. -/
theorem distinct_magics_one_sender_example :
    (pong_task_step (example_seen 1000 [9, 9] example_peer) (platform_ok [1])
      (pong_event_t.recv_cb example_peer
        (next_packet (example_seen 999 [7, 7] example_local) (platform_ok [2])
          s_example_broadcast_mac))).1.send_param.unicast = true ∧
    (pong_task_step (example_seen 999 [7, 7] example_local) (platform_ok [2])
      (pong_event_t.recv_cb example_local
        (next_packet (example_seen 1000 [9, 9] example_peer) (platform_ok [1])
          s_example_broadcast_mac))).1.send_param.unicast = false :=
  have h := distinct_magics_one_sender (example_seen 1000 [9, 9] example_peer)
    (example_seen 999 [7, 7] example_local) (platform_ok [1]) (platform_ok [2])
    example_local example_peer
    (next_packet (example_seen 1000 [9, 9] example_peer) (platform_ok [1])
      s_example_broadcast_mac)
    (next_packet (example_seen 999 [7, 7] example_local) (platform_ok [2])
      s_example_broadcast_mac)
    (by decide) (by decide) (by decide) (by decide) (by decide) (by decide) (by decide)
    (by decide) (by decide) (by decide) (by decide) (by decide) (by decide) (by decide)
    (by decide) (by decide) (by decide) (by decide) (Or.inl (by decide)) (by decide)
    (by decide)
  ⟨h.1, h.2.2.1⟩

set_option maxRecDepth 100000 in
/-- C6 on the code, at two sessions that drew the same magic 1000: both are in
Broadcasting mode with role state 1, each processes the other's broadcast, and both
set `unicast`, because `send_param->magic >= recv_magic` holds on both sides; the
comments above that test name the device with the bigger magic as the one sender. -/
theorem C6_equal_magics_both_elect :
    (example_seen 1000 [9, 9] example_peer).send_param.broadcast = true ∧
    (example_seen 1000 [9, 9] example_peer).send_param.unicast = false ∧
    (example_seen 1000 [9, 9] example_peer).send_param.state = 1 ∧
    (example_seen 1000 [7, 7] example_local).send_param.broadcast = true ∧
    (example_seen 1000 [7, 7] example_local).send_param.unicast = false ∧
    (example_seen 1000 [7, 7] example_local).send_param.state = 1 ∧
    (pong_task_step (example_seen 1000 [9, 9] example_peer) (platform_ok [1])
      (pong_event_t.recv_cb example_peer
        (next_packet (example_seen 1000 [7, 7] example_local) (platform_ok [2])
          s_example_broadcast_mac))).1.send_param.unicast = true ∧
    (pong_task_step (example_seen 1000 [7, 7] example_local) (platform_ok [2])
      (pong_event_t.recv_cb example_local
        (next_packet (example_seen 1000 [9, 9] example_peer) (platform_ok [1])
          s_example_broadcast_mac))).1.send_param.unicast = true := by
  decide

/-- C7: for every `n ≥ 1`, a running session in Unicast mode with `count = n` (a 16-bit
value) and target `peer` that processes `n` completions for `peer`, with every send
accepted and the length assertion holding, ends deleted. The first `n - 1` completions
each issue exactly one send, addressed to `peer`, of a packet that parses as a unicast,
and the last one issues none; before the `k`-th completion (`k < n`) the task runs with
`count = n - k` and the same target; and the ended task issues no send on any later
event. -/
theorem C7_unicast_countdown (n : Nat) (st : task_state) (peer : List Nat)
    (evs : List (platform × Nat))
    (hn : 1 ≤ n) (h16 : n < 65536)
    (hrun : st.status = task_status.running) (huni : st.send_param.unicast = true)
    (hdest : st.send_param.dest_mac = peer) (hpeer : peer ≠ s_example_broadcast_mac)
    (hcount : st.send_param.count = n) (hevs : evs.length = n)
    (hlen : PONG_DATA_SIZE ≤ st.send_param.len)
    (hbuf : st.send_param.len ≤ st.send_param.buffer.length)
    (hok : ∀ e ∈ evs, e.1.send_ok = true) :
    (pong_task_run st (unicast_completions peer evs)).1.status = task_status.deleted ∧
    (∃ pkts : List (List Nat), pkts.length + 1 = n ∧
      (∀ p ∈ pkts, (pong_data_parse p st.send_param.len 0 0 0).ret
        = (pong_DATA_UNICAST : Nat)) ∧
      (pong_task_run st (unicast_completions peer evs)).2
        = pkts.map (fun p => [({ dest := peer, data := p } : sent)]) ++ [[]]) ∧
    (∀ k, k < n →
      (pong_task_run st ((unicast_completions peer evs).take k)).1.status
        = task_status.running ∧
      (pong_task_run st ((unicast_completions peer evs).take k)).1.send_param.count
        = n - k ∧
      (pong_task_run st ((unicast_completions peer evs).take k)).1.send_param.dest_mac
        = peer ∧
      (pong_task_run st ((unicast_completions peer evs).take k)).1.send_param.unicast
        = true) ∧
    (∀ (env : platform) (evt : pong_event_t),
      (pong_task_step (pong_task_run st (unicast_completions peer evs)).1 env evt).2 = [] ∧
      (pong_task_step (pong_task_run st (unicast_completions peer evs)).1 env evt).1
        = (pong_task_run st (unicast_completions peer evs)).1) := by
  subst hevs
  obtain ⟨h1, h2, h3⟩ := unicast_countdown peer hpeer evs st hrun huni hdest hcount hn h16
    hlen hbuf hok
  refine ⟨h1, h2, h3, ?_⟩
  intro env evt
  have hnr : (pong_task_run st (unicast_completions peer evs)).1.status
      ≠ task_status.running := by
    unfold unicast_completions; rw [h1]; simp
  rw [pong_task_step_not_running _ env evt hnr]
  exact ⟨rfl, rfl⟩

set_option maxRecDepth 100000 in
/-- C7 at a concrete session: `example_elected` with five sends remaining processes
five completions, the third of which reports a failure status. -/
theorem C7_unicast_countdown_witness :
    (pong_task_run example_elected (unicast_completions example_peer
      [(platform_ok [1], 0), (platform_ok [2], 0), (platform_ok [3], 1), (platform_ok [4], 0),
       (platform_ok [5], 0)])).1.status = task_status.deleted :=
  (C7_unicast_countdown 5 example_elected example_peer
    [(platform_ok [1], 0), (platform_ok [2], 0), (platform_ok [3], 1), (platform_ok [4], 0),
     (platform_ok [5], 0)]
    (by decide) (by decide) (by decide) (by decide) (by decide) (by decide) (by decide)
    (by decide) (by decide) (by decide) (by decide)).1

/-- C8 (as amended): for every running session whose remaining count is a positive
16-bit value, a send completion lowers `count` by one if and only if its address is
not the broadcast address, whatever status it reports; a completion for the broadcast
address leaves `count` unchanged. -/
theorem C8_count_decrements_on_unicast_completion (st : task_state) (env : platform)
    (mac : List Nat) (status : Nat)
    (hrun : st.status = task_status.running)
    (hpos : 0 < st.send_param.count) (hlt : st.send_param.count < 65536) :
    ((pong_task_step st env (pong_event_t.send_cb mac status)).1.send_param.count + 1
        = st.send_param.count ↔ mac ≠ s_example_broadcast_mac) ∧
    (mac = s_example_broadcast_mac →
      (pong_task_step st env (pong_event_t.send_cb mac status)).1.send_param.count
        = st.send_param.count) := by
  rw [pong_task_step_running st env _ hrun]
  simp only []
  rw [on_send_cb_count]
  by_cases hmac : mac = s_example_broadcast_mac
  · rw [if_pos hmac]
    exact ⟨⟨fun h => by omega, fun h => absurd hmac h⟩, fun _ => rfl⟩
  · rw [if_neg hmac]
    exact ⟨⟨fun _ => hmac, fun _ => by omega⟩, fun h => absurd h hmac⟩

set_option maxRecDepth 100000 in
/-- C8 (as amended) at a concrete session: a completion for a peer address that reports
`ESP_NOW_SEND_FAIL`. -/
theorem C8_count_decrements_on_unicast_completion_witness :
    (pong_task_step example_session (platform_ok [1, 2])
      (pong_event_t.send_cb example_peer ESP_NOW_SEND_FAIL)).1.send_param.count + 1
      = example_session.send_param.count :=
  (C8_count_decrements_on_unicast_completion example_session (platform_ok [1, 2]) example_peer
    ESP_NOW_SEND_FAIL (by decide) (by decide) (by decide)).1.mpr (by decide)

set_option maxRecDepth 100000 in
/-- C8 fails as stated: a completion for a peer address that reports
`ESP_NOW_SEND_FAIL` lowers `count` from 5 to 4. -/
theorem C8_counterexample :
    ESP_NOW_SEND_FAIL ≠ ESP_NOW_SEND_SUCCESS ∧
    example_peer ≠ s_example_broadcast_mac ∧
    example_session.status = task_status.running ∧
    example_session.send_param.count = 5 ∧
    (pong_task_step example_session (platform_ok [1, 2])
      (pong_event_t.send_cb example_peer ESP_NOW_SEND_FAIL)).1.send_param.count = 4 := by
  decide

/-- C9: for every running session, whatever its role state and magic, processing a
reception whose data parses as a unicast leaves the `broadcast` flag clear, issues no
send, leaves the task running and leaves role state, remaining count, target address,
`unicast` flag, sequence counters and peer list unchanged; a completion for the
broadcast address processed afterwards, whatever the platform answers, issues no send
and changes neither the parameter block nor the sequence counters. -/
theorem C9_unicast_receipt_stops_broadcasting (st : task_state) (env : platform)
    (mac data : List Nat)
    (hrun : st.status = task_status.running)
    (hret : (pong_data_parse data (data.length % 65536) st.recv_state st.recv_seq
      st.recv_magic).ret = (pong_DATA_UNICAST : Nat)) :
    (pong_task_step st env (pong_event_t.recv_cb mac data)).1.send_param.broadcast = false ∧
    (pong_task_step st env (pong_event_t.recv_cb mac data)).2 = [] ∧
    (pong_task_step st env (pong_event_t.recv_cb mac data)).1.status = task_status.running ∧
    (pong_task_step st env (pong_event_t.recv_cb mac data)).1.send_param
      = { st.send_param with broadcast := false } ∧
    (pong_task_step st env (pong_event_t.recv_cb mac data)).1.s_pong_seq = st.s_pong_seq ∧
    (pong_task_step st env (pong_event_t.recv_cb mac data)).1.peers = st.peers ∧
    ∀ (env2 : platform) (status : Nat),
      (pong_task_step (pong_task_step st env (pong_event_t.recv_cb mac data)).1 env2
        (pong_event_t.send_cb s_example_broadcast_mac status)).2 = [] ∧
      (pong_task_step (pong_task_step st env (pong_event_t.recv_cb mac data)).1 env2
        (pong_event_t.send_cb s_example_broadcast_mac status)).1.send_param
        = { st.send_param with broadcast := false } ∧
      (pong_task_step (pong_task_step st env (pong_event_t.recv_cb mac data)).1 env2
        (pong_event_t.send_cb s_example_broadcast_mac status)).1.s_pong_seq
        = st.s_pong_seq := by
  have hstep : pong_task_step st env (pong_event_t.recv_cb mac data)
      = on_recv_cb st env mac data := pong_task_step_running st env _ hrun
  rw [hstep, on_recv_cb_unicast st env mac data hret]
  refine ⟨rfl, rfl, hrun, rfl, rfl, rfl, ?_⟩
  intro env2 status
  simp only []
  generalize hst1 : ({ st with
      recv_state := (pong_data_parse data (data.length % 65536) st.recv_state st.recv_seq
        st.recv_magic).state,
      recv_seq := (pong_data_parse data (data.length % 65536) st.recv_state st.recv_seq
        st.recv_magic).seq,
      recv_magic := (pong_data_parse data (data.length % 65536) st.recv_state st.recv_seq
        st.recv_magic).magic,
      send_param := { st.send_param with broadcast := false } } : task_state) = st1
  have hrun1 : st1.status = task_status.running := by rw [← hst1]; exact hrun
  have hb1 : st1.send_param.broadcast = false := by rw [← hst1]
  rw [pong_task_step_stray_completion st1 env2 status hrun1 hb1]
  rw [← hst1]
  exact ⟨rfl, rfl, rfl⟩

set_option maxRecDepth 100000 in
/-- C9 at a concrete session: `example_session` receives `example_unicast`. -/
theorem C9_unicast_receipt_stops_broadcasting_witness :
    (pong_task_step example_session (platform_ok [1, 2])
      (pong_event_t.recv_cb example_peer example_unicast)).1.send_param.broadcast = false ∧
    (pong_task_step example_session (platform_ok [1, 2])
      (pong_event_t.recv_cb example_peer example_unicast)).2 = [] :=
  have h := C9_unicast_receipt_stops_broadcasting example_session (platform_ok [1, 2])
    example_peer example_unicast (by decide) (by decide)
  ⟨h.1, h.2.1⟩

/-- C10: for every session state and every reception whose data `pong_data_parse`
rejects (too short or checksum mismatch, return value -1), processing the event leaves
the parameter block (mode flags, role state, remaining sends, target peer), the
sequence counters, the peer list and the task status unchanged and issues no send. -/
theorem C10_decode_failure_changes_nothing (st : task_state) (env : platform)
    (mac data : List Nat)
    (h : (pong_data_parse data (data.length % 65536) st.recv_state st.recv_seq
      st.recv_magic).ret = -1) :
    (pong_task_step st env (pong_event_t.recv_cb mac data)).1.send_param = st.send_param ∧
    (pong_task_step st env (pong_event_t.recv_cb mac data)).1.s_pong_seq = st.s_pong_seq ∧
    (pong_task_step st env (pong_event_t.recv_cb mac data)).1.peers = st.peers ∧
    (pong_task_step st env (pong_event_t.recv_cb mac data)).1.status = st.status ∧
    (pong_task_step st env (pong_event_t.recv_cb mac data)).2 = [] := by
  by_cases hr : st.status = task_status.running
  · rw [pong_task_step_running st env _ hr]
    simp only []
    rw [on_recv_cb_other st env mac data (by rw [h]; simp) (by rw [h]; simp)]
    exact ⟨rfl, rfl, rfl, rfl, rfl⟩
  · rw [pong_task_step_not_running st env _ hr]
    exact ⟨rfl, rfl, rfl, rfl, rfl⟩

set_option maxRecDepth 100000 in
/-- C10 at a concrete session: `example_session` receives `example_broadcast` with
bit 9 flipped. -/
theorem C10_decode_failure_changes_nothing_witness :
    (pong_task_step example_session (platform_ok [1, 2])
      (pong_event_t.recv_cb example_peer (flip_bit example_broadcast 9))).1.send_param
      = example_session.send_param ∧
    (pong_task_step example_session (platform_ok [1, 2])
      (pong_event_t.recv_cb example_peer (flip_bit example_broadcast 9))).2 = [] :=
  have h := C10_decode_failure_changes_nothing example_session (platform_ok [1, 2])
    example_peer (flip_bit example_broadcast 9) (by decide)
  ⟨h.1, h.2.2.2.2⟩

/-- C12: a call of `pong_data_prepare` (length assertion holding) stamps the packet
with the current counter of the packet's kind, advances that counter by one modulo
2^16 and leaves the other counter unchanged. Hence in any sequence of calls that
starts from the counters `{0, 0}`, the packet of call `j` carries its kind and, as
sequence number, the number of earlier calls of the same kind modulo 2^16, however
many calls of the other kind lie in between. -/
theorem C12_sequence_allocation (sp : pong_send_param_t) (sq : seq_counters) (rnd : List Nat)
    (hlen : PONG_DATA_SIZE ≤ sp.len) (hbuf : sp.len ≤ sp.buffer.length) :
    (∃ sp1 sq1, pong_data_prepare sp sq rnd = some (sp1, sq1) ∧
      rd16 sp1.buffer 2
        = (if sp.dest_mac = s_example_broadcast_mac then sq.bcast else sq.ucast) % 65536 ∧
      sq1.bcast = (if sp.dest_mac = s_example_broadcast_mac then (sq.bcast + 1) % 65536
        else sq.bcast) ∧
      sq1.ucast = (if sp.dest_mac = s_example_broadcast_mac then sq.ucast
        else (sq.ucast + 1) % 65536)) ∧
    (∀ (calls : List (List Nat × List Nat)) (j : Nat) (dest filler : List Nat),
      calls[j]? = some (dest, filler) →
      ∃ pkt, (prepare_calls calls sp { bcast := 0, ucast := 0 })[j]? = some pkt ∧
        rd8 pkt 0 = kind_of dest ∧
        rd16 pkt 2
          = ((calls.take j).countP (fun c => kind_of c.1 = kind_of dest)) % 65536) := by
  constructor
  · refine ⟨_, _, pong_data_prepare_eq sp sq rnd hlen hbuf, ?_, ?_, ?_⟩
    · dsimp only
      rw [rd16_packet_seq_append, seq_counters_get_kind_of]
    · unfold kind_of IS_BROADCAST_ADDR seq_counters.incr
      by_cases h : sp.dest_mac = s_example_broadcast_mac <;>
        simp [h, pong_DATA_BROADCAST, pong_DATA_UNICAST]
    · unfold kind_of IS_BROADCAST_ADDR seq_counters.incr
      by_cases h : sp.dest_mac = s_example_broadcast_mac <;>
        simp [h, pong_DATA_BROADCAST, pong_DATA_UNICAST]
  · intro calls j dest filler hj
    obtain ⟨pkt, h1, h2, h3⟩ := prepare_calls_seq calls sp { bcast := 0, ucast := 0 } j dest
      filler hlen hbuf hj
    refine ⟨pkt, h1, h2, ?_⟩
    rw [h3]
    have h0 : ({ bcast := 0, ucast := 0 } : seq_counters).get (kind_of dest) = 0 := by
      unfold seq_counters.get; split <;> rfl
    rw [h0, Nat.zero_add]

set_option maxRecDepth 100000 in
/-- C12 at a concrete sequence of calls: broadcast, unicast, unicast, broadcast; the
last packet is the second broadcast and carries sequence number 1. -/
theorem C12_sequence_allocation_witness :
    ∃ pkt, (prepare_calls
        [(s_example_broadcast_mac, [1]), (example_peer, [2]), (example_peer, [3]),
         (s_example_broadcast_mac, [4])] example_param { bcast := 0, ucast := 0 })[3]?
        = some pkt ∧
      rd8 pkt 0 = kind_of s_example_broadcast_mac ∧
      rd16 pkt 2 = (([(s_example_broadcast_mac, [1]), (example_peer, [2]), (example_peer, [3]),
        (s_example_broadcast_mac, [4])].take 3).countP
          (fun c => kind_of c.1 = kind_of s_example_broadcast_mac)) % 65536 :=
  (C12_sequence_allocation example_param { bcast := 7, ucast := 3 } [1, 2, 3] (by decide)
    (by decide)).2
    [(s_example_broadcast_mac, [1]), (example_peer, [2]), (example_peer, [3]),
     (s_example_broadcast_mac, [4])] 3 s_example_broadcast_mac [4] (by decide)

/-- C14: when `esp_now_send` fails, each send site ends the task after that one call.
Take a running session whose packet length satisfies the assertion of
`pong_data_prepare`, and a platform on which the send fails. The first broadcast:
the task is deleted after the one send of the prepared buffer. A completion for the
broadcast address while the `broadcast` flag is set: the task is deleted and exactly
one send, to the broadcast address, was issued. A completion for a peer address that
does not bring the count to zero: the task is deleted and exactly one send, to that
peer, was issued. A reception that elects the session (a broadcast with role state 1
and magic at most the local magic, `unicast` clear, the sender registered): the task
is deleted, exactly one send, to the sender, was issued, and `unicast` stays clear.
Whatever the event, the step issues no send or is deleted after exactly one. And a
deleted task keeps its state and issues no send on any later event, so the failed
send is never repeated. -/
theorem C14_send_failure_is_fatal (st : task_state) (env : platform)
    (hfail : env.send_ok = false) (hrun : st.status = task_status.running)
    (hlen : PONG_DATA_SIZE ≤ st.send_param.len)
    (hbuf : st.send_param.len ≤ st.send_param.buffer.length) :
    ((pong_task_start st env).1.status = task_status.deleted ∧
      (pong_task_start st env).2
        = [{ dest := st.send_param.dest_mac,
             data := st.send_param.buffer.take st.send_param.len }]) ∧
    (∀ (status : Nat), st.send_param.broadcast = true →
      (pong_task_step st env
        (pong_event_t.send_cb s_example_broadcast_mac status)).1.status
        = task_status.deleted ∧
      (pong_task_step st env (pong_event_t.send_cb s_example_broadcast_mac status)).2
        = [{ dest := s_example_broadcast_mac,
             data := next_packet st env s_example_broadcast_mac }]) ∧
    (∀ (mac : List Nat) (status : Nat), mac ≠ s_example_broadcast_mac →
      (st.send_param.count + 65535) % 65536 ≠ 0 →
      (pong_task_step st env (pong_event_t.send_cb mac status)).1.status
        = task_status.deleted ∧
      (pong_task_step st env (pong_event_t.send_cb mac status)).2
        = [{ dest := mac, data := next_packet st env mac }]) ∧
    (∀ (mac data : List Nat),
      (pong_data_parse data (data.length % 65536) st.recv_state st.recv_seq
        st.recv_magic).ret = (pong_DATA_BROADCAST : Nat) →
      (st.peers.contains mac = true ∨ (env.malloc_ok = true ∧ env.add_peer_ok = true)) →
      (pong_data_parse data (data.length % 65536) st.recv_state st.recv_seq
        st.recv_magic).state = 1 →
      st.send_param.unicast = false →
      toUInt32 (pong_data_parse data (data.length % 65536) st.recv_state st.recv_seq
        st.recv_magic).magic ≤ st.send_param.magic →
      (pong_task_step st env (pong_event_t.recv_cb mac data)).1.status
        = task_status.deleted ∧
      (pong_task_step st env (pong_event_t.recv_cb mac data)).1.send_param.unicast
        = false ∧
      (pong_task_step st env (pong_event_t.recv_cb mac data)).2.map (fun s => s.dest)
        = [mac] ∧
      (pong_task_step st env (pong_event_t.recv_cb mac data)).2.length = 1) ∧
    (∀ (evt : pong_event_t),
      (pong_task_step st env evt).2 = [] ∨
      ((pong_task_step st env evt).1.status = task_status.deleted ∧
        (pong_task_step st env evt).2.length = 1)) ∧
    (∀ (s : task_state) (evs : List (platform × pong_event_t)),
      s.status = task_status.deleted →
      (pong_task_run s evs).1 = s ∧ ∀ out ∈ (pong_task_run s evs).2, out = []) := by
  refine ⟨?_, ?_, ?_, ?_, ?_, ?_⟩
  · unfold pong_task_start
    rw [hrun]
    dsimp only
    rw [if_pos hfail]
    exact ⟨rfl, rfl⟩
  · intro status hb
    rw [pong_task_step_running st env _ hrun]
    dsimp only
    rw [on_send_cb_broadcast, if_neg (by rw [hb]; exact Bool.noConfusion)]
    have h := prepare_and_send_fail { st with is_broadcast := true } env
      s_example_broadcast_mac false hlen hbuf hfail
    exact ⟨h.1, h.2.2.2⟩
  · intro mac status hmac hcount
    rw [pong_task_step_running st env _ hrun]
    dsimp only
    rw [on_send_cb_unicast st env mac status hmac, if_neg hcount]
    have h := prepare_and_send_fail
      { st with is_broadcast := false,
                send_param := { st.send_param with
                  count := (st.send_param.count + 65535) % 65536 } } env mac false
      hlen hbuf hfail
    refine ⟨h.1, ?_⟩
    rw [h.2.2.2]
    unfold next_packet
    dsimp only
  · intro mac data hret hpeer hstate huni hmagic
    rw [pong_task_step_running st env _ hrun]
    dsimp only
    rw [on_recv_cb_broadcast st env mac data hret hpeer, if_pos ⟨hstate, huni, hmagic⟩]
    have hlen2 : PONG_DATA_SIZE ≤ (after_broadcast st (pong_data_parse data
        (data.length % 65536) st.recv_state st.recv_seq st.recv_magic) mac).send_param.len := by
      simp only [after_broadcast, mark_received_len]; exact hlen
    have hbuf2 : (after_broadcast st (pong_data_parse data
        (data.length % 65536) st.recv_state st.recv_seq st.recv_magic) mac).send_param.len
        ≤ (after_broadcast st (pong_data_parse data
        (data.length % 65536) st.recv_state st.recv_seq st.recv_magic)
          mac).send_param.buffer.length := by
      simp only [after_broadcast, mark_received_len, mark_received_buffer]; exact hbuf
    have h := prepare_and_send_fail (after_broadcast st (pong_data_parse data
      (data.length % 65536) st.recv_state st.recv_seq st.recv_magic) mac) env mac true
      hlen2 hbuf2 hfail
    refine ⟨h.1, ?_, ?_, ?_⟩
    · rw [h.2.1]
      simp only [after_broadcast, mark_received_unicast]; exact huni
    · rw [h.2.2.2]; rfl
    · rw [h.2.2.2]; rfl
  · intro evt
    by_cases hout : (pong_task_step st env evt).2 = []
    · exact Or.inl hout
    · exact Or.inr (pong_task_step_send_fails st env evt hfail hout)
  · intro s evs hs
    exact pong_task_run_deleted evs s hs

set_option maxRecDepth 100000 in
/-- C14 at concrete sessions. For `example_session`, in Broadcasting mode, the send
after a completed broadcast fails: task deleted, one send to the broadcast address.
For `example_elected`, in Unicast mode with five sends remaining, the send after a
completed unicast fails: task deleted, one send to the peer. -/
theorem C14_send_failure_is_fatal_witness :
    ((platform_send_fails [1, 2]).send_ok = false ∧
     example_session.status = task_status.running ∧
     PONG_DATA_SIZE ≤ example_session.send_param.len ∧
     example_session.send_param.len ≤ example_session.send_param.buffer.length ∧
     example_session.send_param.broadcast = true ∧
     (pong_task_step example_session (platform_send_fails [1, 2])
       (pong_event_t.send_cb s_example_broadcast_mac 0)).1.status = task_status.deleted ∧
     (pong_task_step example_session (platform_send_fails [1, 2])
       (pong_event_t.send_cb s_example_broadcast_mac 0)).2
       = [{ dest := s_example_broadcast_mac,
            data := next_packet example_session (platform_send_fails [1, 2])
              s_example_broadcast_mac }]) ∧
    (example_elected.status = task_status.running ∧
     PONG_DATA_SIZE ≤ example_elected.send_param.len ∧
     example_elected.send_param.len ≤ example_elected.send_param.buffer.length ∧
     example_peer ≠ s_example_broadcast_mac ∧
     (example_elected.send_param.count + 65535) % 65536 ≠ 0 ∧
     (pong_task_step example_elected (platform_send_fails [3, 4])
       (pong_event_t.send_cb example_peer 0)).1.status = task_status.deleted ∧
     (pong_task_step example_elected (platform_send_fails [3, 4])
       (pong_event_t.send_cb example_peer 0)).2
       = [{ dest := example_peer,
            data := next_packet example_elected (platform_send_fails [3, 4])
              example_peer }]) :=
  ⟨⟨rfl, by decide, by decide, by decide, by decide,
    (C14_send_failure_is_fatal example_session (platform_send_fails [1, 2]) rfl
      (by decide) (by decide) (by decide)).2.1 0 (by decide)⟩,
   ⟨by decide, by decide, by decide, by decide, by decide,
    (C14_send_failure_is_fatal example_elected (platform_send_fails [3, 4]) rfl
      (by decide) (by decide) (by decide)).2.2.1 example_peer 0 (by decide) (by decide)⟩⟩

/-- C15 (as amended): `pong_data_parse` changes its input buffer only in the checksum
field. Below the header size the buffer is unchanged; from the header size on, whether
the parse succeeds or fails, the buffer afterwards is the input with bytes 4 and 5 set
to zero, so its length and every byte at another offset are unchanged and the
checksum field reads zero afterwards. The return value does not depend on what the
out-parameters held before, so a parse of the same bytes returns the same value
again. -/
theorem C15_parse_zeroes_only_checksum (data : List Nat) (data_len state0 seq0 : Nat)
    (magic0 : Int) :
    (data_len < PONG_DATA_SIZE →
      (pong_data_parse data data_len state0 seq0 magic0).data = data) ∧
    (PONG_DATA_SIZE ≤ data_len →
      (pong_data_parse data data_len state0 seq0 magic0).data = (data.set 4 0).set 5 0) ∧
    (pong_data_parse data data_len state0 seq0 magic0).data.length = data.length ∧
    (∀ j, j ≠ 4 → j ≠ 5 →
      (pong_data_parse data data_len state0 seq0 magic0).data[j]? = data[j]?) ∧
    (PONG_DATA_SIZE ≤ data_len → data_len ≤ data.length →
      rd16 (pong_data_parse data data_len state0 seq0 magic0).data 4 = 0) ∧
    (∀ (state1 seq1 : Nat) (magic1 : Int),
      (pong_data_parse data data_len state1 seq1 magic1).ret
        = (pong_data_parse data data_len state0 seq0 magic0).ret) := by
  by_cases h : data_len < PONG_DATA_SIZE
  · have hd : ∀ (s q : Nat) (m : Int),
        pong_data_parse data data_len s q m
          = { ret := -1, data := data, state := s, seq := q, magic := m } := by
      intro s q m; unfold pong_data_parse; rw [if_pos h]
    refine ⟨fun _ => by rw [hd], fun h2 => by omega, by rw [hd], fun j _ _ => by rw [hd],
      fun h2 => by omega, fun s q m => by rw [hd, hd]⟩
  · have hdata : ∀ (s q : Nat) (m : Int),
        (pong_data_parse data data_len s q m).data = (data.set 4 0).set 5 0 := by
      intro s q m
      unfold pong_data_parse
      rw [if_neg h]
      dsimp only
      split <;> exact wr16_zero data 4
    have hret : ∀ (s q : Nat) (m : Int),
        (pong_data_parse data data_len s q m).ret
          = (pong_data_parse data data_len 0 0 0).ret := by
      intro s q m
      unfold pong_data_parse
      rw [if_neg h]
      dsimp only
      split <;> rfl
    refine ⟨fun h2 => absurd h2 h, fun _ => hdata _ _ _, ?_, ?_, ?_, ?_⟩
    · rw [hdata]; simp
    · intro j h4 h5
      rw [hdata, List.getElem?_set_ne (Ne.symm h5), List.getElem?_set_ne (Ne.symm h4)]
    · intro h1 h2
      rw [hdata]
      unfold PONG_DATA_SIZE at h1
      show rd8 ((data.set 4 0).set 5 0) 4 + 256 * rd8 ((data.set 4 0).set 5 0) 5 = 0
      rw [rd8_set_ne _ _ _ _ (by omega), rd8_set_eq _ _ _ (by omega),
        rd8_set_eq _ _ _ (by rw [List.length_set]; omega)]
    · intro s q m
      rw [hret s q m, hret state0 seq0 magic0]

set_option maxRecDepth 100000 in
/-- C15 fails as stated: the parse of the valid packet `example_broadcast` returns 0
and leaves a buffer that differs from the input (the checksum bytes are zero), and a
second parse of that buffer returns -1. -/
theorem C15_counterexample :
    (pong_data_parse example_broadcast 12 0 0 0).ret = 0 ∧
    (pong_data_parse example_broadcast 12 0 0 0).data ≠ example_broadcast ∧
    rd16 example_broadcast 4 ≠ 0 ∧
    rd16 (pong_data_parse example_broadcast 12 0 0 0).data 4 = 0 ∧
    (pong_data_parse (pong_data_parse example_broadcast 12 0 0 0).data 12 0 0 0).ret
      = -1 := by
  decide

/-- C16: for every session state whose `broadcast` flag is clear, processing a
completion for the broadcast address leaves the parameter block (remaining count,
target, role state, flags), the sequence counters, the peer list and the task status
unchanged and issues no send. -/
theorem C16_stray_broadcast_completion_ignored (st : task_state) (env : platform)
    (status : Nat) (hb : st.send_param.broadcast = false) :
    (pong_task_step st env
      (pong_event_t.send_cb s_example_broadcast_mac status)).1.send_param = st.send_param ∧
    (pong_task_step st env
      (pong_event_t.send_cb s_example_broadcast_mac status)).1.s_pong_seq = st.s_pong_seq ∧
    (pong_task_step st env
      (pong_event_t.send_cb s_example_broadcast_mac status)).1.peers = st.peers ∧
    (pong_task_step st env
      (pong_event_t.send_cb s_example_broadcast_mac status)).1.status = st.status ∧
    (pong_task_step st env
      (pong_event_t.send_cb s_example_broadcast_mac status)).2 = [] := by
  by_cases hrun : st.status = task_status.running
  · rw [pong_task_step_stray_completion st env status hrun hb]
    exact ⟨rfl, rfl, rfl, rfl, rfl⟩
  · rw [pong_task_step_not_running st env _ hrun]
    exact ⟨rfl, rfl, rfl, rfl, rfl⟩

set_option maxRecDepth 100000 in
/-- C16 at a concrete session: `example_elected` gets the completion of its last
broadcast. -/
theorem C16_stray_broadcast_completion_ignored_witness :
    (pong_task_step example_elected (platform_ok [3])
      (pong_event_t.send_cb s_example_broadcast_mac 0)).1.send_param
      = example_elected.send_param ∧
    (pong_task_step example_elected (platform_ok [3])
      (pong_event_t.send_cb s_example_broadcast_mac 0)).2 = [] :=
  have h := C16_stray_broadcast_completion_ignored example_elected (platform_ok [3]) 0
    (by decide)
  ⟨h.1, h.2.2.2.2⟩

/-- C17 (as amended): both callbacks post with `xQueueSend(..., portMAX_DELAY)`. With
space in the queue the event is appended at the tail and the callback returns. On a
full queue the callback does not fail at once: it is suspended inside the call, the
queue is unchanged, and the branch that logs the warning (and frees the data copy) is
not taken. In no case does a callback with valid arguments end by dropping its event
at the moment of the call. -/
theorem C17_callbacks_wait_on_full_queue (queue : List pong_event_t) (size : Nat)
    (mac data : List Nat) (status : Nat) (len : Int) (hlen : 0 < len) :
    (size ≤ queue.length →
      pong_send_cb queue size (some mac) status = (callback_result.suspended, queue) ∧
      pong_recv_cb queue size (some mac) (some data) len true
        = (callback_result.suspended, queue)) ∧
    (queue.length < size →
      pong_send_cb queue size (some mac) status
        = (callback_result.posted, queue ++ [pong_event_t.send_cb mac status]) ∧
      pong_recv_cb queue size (some mac) (some data) len true
        = (callback_result.posted,
            queue ++ [pong_event_t.recv_cb mac (data.take len.toNat)])) ∧
    (pong_send_cb queue size (some mac) status).1 ≠ callback_result.dropped ∧
    (pong_recv_cb queue size (some mac) (some data) len true).1
      ≠ callback_result.dropped := by
  have hfull : size ≤ queue.length → ∀ item, xQueueSend queue size item portMAX_DELAY
      = (queue_send_result.waiting, queue) := by
    intro h item
    unfold xQueueSend
    rw [if_neg (by omega), if_neg (by unfold portMAX_DELAY; omega)]
  have hfree : queue.length < size → ∀ item, xQueueSend queue size item portMAX_DELAY
      = (queue_send_result.pdTRUE, queue ++ [item]) := by
    intro h item
    unfold xQueueSend
    rw [if_pos h]
  have hs1 : size ≤ queue.length →
      pong_send_cb queue size (some mac) status = (callback_result.suspended, queue) := by
    intro h
    unfold pong_send_cb
    simp only [hfull h]
  have hr1 : size ≤ queue.length →
      pong_recv_cb queue size (some mac) (some data) len true
        = (callback_result.suspended, queue) := by
    intro h
    unfold pong_recv_cb
    simp only [hfull h]
    rw [if_neg (by omega), if_neg (by simp)]
  have hs2 : queue.length < size →
      pong_send_cb queue size (some mac) status
        = (callback_result.posted, queue ++ [pong_event_t.send_cb mac status]) := by
    intro h
    unfold pong_send_cb
    simp only [hfree h]
  have hr2 : queue.length < size →
      pong_recv_cb queue size (some mac) (some data) len true
        = (callback_result.posted,
            queue ++ [pong_event_t.recv_cb mac (data.take len.toNat)]) := by
    intro h
    unfold pong_recv_cb
    simp only [hfree h]
    rw [if_neg (by omega), if_neg (by simp)]
  refine ⟨fun h => ⟨hs1 h, hr1 h⟩, fun h => ⟨hs2 h, hr2 h⟩, ?_, ?_⟩
  · by_cases h : queue.length < size
    · rw [hs2 h]; simp
    · rw [hs1 (by omega)]; simp
  · by_cases h : queue.length < size
    · rw [hr2 h]; simp
    · rw [hr1 (by omega)]; simp

/-- C17 (as amended) at a concrete queue with a free slot: the completion is posted
at the tail. -/
theorem C17_callbacks_wait_on_full_queue_witness :
    pong_send_cb [pong_event_t.other 0] 2 (some example_peer) ESP_NOW_SEND_SUCCESS
      = (callback_result.posted,
          [pong_event_t.other 0, pong_event_t.send_cb example_peer ESP_NOW_SEND_SUCCESS]) :=
  ((C17_callbacks_wait_on_full_queue [pong_event_t.other 0] 2 example_peer [1, 2, 3]
    ESP_NOW_SEND_SUCCESS 3 (by decide)).2.1 (by decide)).1

/-- C17 fails as stated: on a full queue (two slots, both taken) the completion
callback and the reception callback do not drop their event; they are suspended in
`xQueueSend`. -/
theorem C17_counterexample :
    pong_send_cb [pong_event_t.other 0, pong_event_t.other 1] 2 (some example_peer)
        ESP_NOW_SEND_SUCCESS
      = (callback_result.suspended, [pong_event_t.other 0, pong_event_t.other 1]) ∧
    pong_recv_cb [pong_event_t.other 0, pong_event_t.other 1] 2 (some example_peer)
        (some [1, 2, 3]) 3 true
      = (callback_result.suspended, [pong_event_t.other 0, pong_event_t.other 1]) := by
  decide

/-- C18: for every running session in Broadcasting mode, processing a completion for
the broadcast address (the send succeeding and the length assertion holding) issues
exactly one send, addressed to the broadcast address, whose packet parses as a
broadcast with the session's role state and magic and the current value of the
broadcast counter; the task keeps running with its flags, role state and remaining
count, the unicast counter is unchanged and the broadcast counter has advanced by one
modulo 2^16. -/
theorem C18_broadcast_continues (st : task_state) (env : platform) (status : Nat)
    (hrun : st.status = task_status.running)
    (hb : st.send_param.broadcast = true) (hu : st.send_param.unicast = false)
    (hsend : env.send_ok = true)
    (hlen : PONG_DATA_SIZE ≤ st.send_param.len)
    (hbuf : st.send_param.len ≤ st.send_param.buffer.length) :
    (∃ pkt, (pong_task_step st env (pong_event_t.send_cb s_example_broadcast_mac status)).2
        = [{ dest := s_example_broadcast_mac, data := pkt }] ∧
      (pong_data_parse pkt st.send_param.len 0 0 0).ret = (pong_DATA_BROADCAST : Nat) ∧
      (pong_data_parse pkt st.send_param.len 0 0 0).state = st.send_param.state % 256 ∧
      (pong_data_parse pkt st.send_param.len 0 0 0).seq = st.s_pong_seq.bcast % 65536 ∧
      (pong_data_parse pkt st.send_param.len 0 0 0).magic = toInt32 st.send_param.magic) ∧
    (pong_task_step st env
      (pong_event_t.send_cb s_example_broadcast_mac status)).1.status
        = task_status.running ∧
    (pong_task_step st env
      (pong_event_t.send_cb s_example_broadcast_mac status)).1.send_param.broadcast
        = true ∧
    (pong_task_step st env
      (pong_event_t.send_cb s_example_broadcast_mac status)).1.send_param.unicast
        = false ∧
    (pong_task_step st env
      (pong_event_t.send_cb s_example_broadcast_mac status)).1.send_param.state
        = st.send_param.state ∧
    (pong_task_step st env
      (pong_event_t.send_cb s_example_broadcast_mac status)).1.send_param.count
        = st.send_param.count ∧
    (pong_task_step st env
      (pong_event_t.send_cb s_example_broadcast_mac status)).1.s_pong_seq.ucast
        = st.s_pong_seq.ucast ∧
    (pong_task_step st env
      (pong_event_t.send_cb s_example_broadcast_mac status)).1.s_pong_seq.bcast
        = (st.s_pong_seq.bcast + 1) % 65536 := by
  have hstep : pong_task_step st env (pong_event_t.send_cb s_example_broadcast_mac status)
      = on_send_cb st env s_example_broadcast_mac status := pong_task_step_running st env _ hrun
  rw [hstep, on_send_cb_broadcast, if_neg (by rw [hb]; simp)]
  generalize hst0 : ({ st with is_broadcast := true } : task_state) = st0
  have e1 : st0.send_param = st.send_param := by rw [← hst0]
  have e2 : st0.s_pong_seq = st.s_pong_seq := by rw [← hst0]
  have e3 : st0.status = st.status := by rw [← hst0]
  have hlen0 : PONG_DATA_SIZE ≤ st0.send_param.len := by rw [e1]; exact hlen
  have hbuf0 : st0.send_param.len ≤ st0.send_param.buffer.length := by rw [e1]; exact hbuf
  rw [prepare_and_send_ok st0 env s_example_broadcast_mac false hlen0 hbuf0 hsend]
  have hp := pong_data_parse_next_packet st0 env s_example_broadcast_mac 0 0 0 hlen0
  rw [kind_of_broadcast, e1, e2] at hp
  refine ⟨⟨_, rfl, ?_, ?_, ?_, ?_⟩, ?_, ?_, ?_, ?_, ?_, ?_, ?_⟩
  · rw [hp]
  · rw [hp]
  · rw [hp]; rfl
  · rw [hp]
  · show st0.status = task_status.running
    rw [e3]; exact hrun
  · show (if false = true then false else st0.send_param.broadcast) = true
    rw [if_neg Bool.false_ne_true, e1]; exact hb
  · show (if false = true then true else st0.send_param.unicast) = false
    rw [if_neg Bool.false_ne_true, e1]; exact hu
  · show st0.send_param.state = st.send_param.state
    rw [e1]
  · show st0.send_param.count = st.send_param.count
    rw [e1]
  · show (st0.s_pong_seq.incr (kind_of s_example_broadcast_mac)).ucast = st.s_pong_seq.ucast
    rw [kind_of_broadcast, e2]; rfl
  · show (st0.s_pong_seq.incr (kind_of s_example_broadcast_mac)).bcast
      = (st.s_pong_seq.bcast + 1) % 65536
    rw [kind_of_broadcast, e2]; rfl

set_option maxRecDepth 100000 in
/-- C18 at a concrete session: `example_session` gets the completion of its first
broadcast. -/
theorem C18_broadcast_continues_witness :
    (pong_task_step example_session (platform_ok [1, 2])
      (pong_event_t.send_cb s_example_broadcast_mac 0)).1.s_pong_seq.bcast
      = (example_session.s_pong_seq.bcast + 1) % 65536 :=
  (C18_broadcast_continues example_session (platform_ok [1, 2]) 0 (by decide) (by decide)
    (by decide) (by decide) (by decide) (by decide)).2.2.2.2.2.2.2

/-- C19: in every state reached from the session that `pong_init` sets up (`broadcast`
set, `unicast` clear) and `pong_task` starts, by any sequence of events and platform
answers, the `broadcast` and `unicast` flags are not both set; and if the `broadcast`
flag is clear in that state it is clear in every state reached from it by any further
sequence of events. -/
theorem C19_flags_exclusive_and_broadcast_never_resumes (cfg : pong_config) (random : Nat)
    (rnd : List Nat) (env0 : platform) (evs evs1 : List (platform × pong_event_t)) :
    (pong_init cfg random rnd).send_param.broadcast = true ∧
    (pong_init cfg random rnd).send_param.unicast = false ∧
    ¬ ((pong_task_run (pong_task_start (pong_init cfg random rnd) env0).1
          evs).1.send_param.broadcast = true ∧
        (pong_task_run (pong_task_start (pong_init cfg random rnd) env0).1
          evs).1.send_param.unicast = true) ∧
    ((pong_task_run (pong_task_start (pong_init cfg random rnd) env0).1
        evs).1.send_param.broadcast = false →
      (pong_task_run (pong_task_run (pong_task_start (pong_init cfg random rnd) env0).1
        evs).1 evs1).1.send_param.broadcast = false) := by
  obtain ⟨hu, hb, _, _⟩ := pong_init_fields cfg random rnd
  obtain ⟨hsp, _, _⟩ := pong_task_start_cases (pong_init cfg random rnd) env0
  refine ⟨hb, hu, ?_, ?_⟩
  · apply (pong_task_run_cases evs _).2.2
    rw [hsp, hu]
    rintro ⟨_, h⟩
    exact Bool.noConfusion h
  · exact (pong_task_run_cases evs1 _).2.1

/-- C20: for every reception whose data is at least header-sized (and shorter than
2^16 bytes), has a correct checksum and a kind byte that is neither 0 nor 1,
`pong_data_parse` returns the kind byte, and processing the event leaves the parameter
block, the sequence counters, the peer list and the task status unchanged and issues
no send. -/
theorem C20_unknown_kind_is_bad_packet (st : task_state) (env : platform)
    (mac data : List Nat)
    (hlen : PONG_DATA_SIZE ≤ data.length) (hlen16 : data.length < 65536)
    (hcrc : crc16_le UINT16_MAX (wr16 data 4 0) data.length = rd16 data 4)
    (hk0 : rd8 data 0 ≠ pong_DATA_BROADCAST) (hk1 : rd8 data 0 ≠ pong_DATA_UNICAST) :
    (pong_data_parse data data.length st.recv_state st.recv_seq st.recv_magic).ret
      = (rd8 data 0 : Nat) ∧
    (pong_task_step st env (pong_event_t.recv_cb mac data)).1.send_param = st.send_param ∧
    (pong_task_step st env (pong_event_t.recv_cb mac data)).1.s_pong_seq = st.s_pong_seq ∧
    (pong_task_step st env (pong_event_t.recv_cb mac data)).1.peers = st.peers ∧
    (pong_task_step st env (pong_event_t.recv_cb mac data)).1.status = st.status ∧
    (pong_task_step st env (pong_event_t.recv_cb mac data)).2 = [] := by
  have hret : (pong_data_parse data data.length st.recv_state st.recv_seq st.recv_magic).ret
      = (rd8 data 0 : Nat) := by
    unfold pong_data_parse
    rw [if_neg (by omega)]
    simp only [if_pos hcrc]
    rw [rd8_wr16_ne _ _ _ _ (by omega) (by omega)]
  refine ⟨hret, ?_⟩
  by_cases hrun : st.status = task_status.running
  · rw [pong_task_step_running st env _ hrun]
    dsimp only
    have hmod : data.length % 65536 = data.length := Nat.mod_eq_of_lt hlen16
    rw [on_recv_cb_other st env mac data
      (by rw [hmod, hret]; exact_mod_cast hk0) (by rw [hmod, hret]; exact_mod_cast hk1)]
    exact ⟨rfl, rfl, rfl, rfl, rfl⟩
  · rw [pong_task_step_not_running st env _ hrun]
    exact ⟨rfl, rfl, rfl, rfl, rfl⟩

set_option maxRecDepth 100000 in
/-- C20 at a concrete reception: a twelve-byte packet with kind byte 7 and a correct
checksum arrives at `example_session`. -/
theorem C20_unknown_kind_is_bad_packet_witness :
    (pong_data_parse (packet_bytes 7 1 0 500 [5, 6]) (packet_bytes 7 1 0 500 [5, 6]).length
      example_session.recv_state example_session.recv_seq example_session.recv_magic).ret
      = 7 ∧
    (pong_task_step example_session (platform_ok [1, 2])
      (pong_event_t.recv_cb example_peer (packet_bytes 7 1 0 500 [5, 6]))).2 = [] :=
  have h := C20_unknown_kind_is_bad_packet example_session (platform_ok [1, 2]) example_peer
    (packet_bytes 7 1 0 500 [5, 6]) (by decide) (by decide) (by decide) (by decide)
    (by decide)
  ⟨h.1, h.2.2.2.2.2⟩

end Pong
